import Mathlib

/-!
HD61830 LCD timing controller (src/mess/video/hd61830.c)

A shallow embedding of the register interface of `hd61830_device`: the
instruction register, the busy flag with its one-shot timer, the cursor
address counter, the data output latch and the device's video RAM.

Conventions of the embedding

* `UINT8` and `UINT16` members are natural numbers; every place where the C
  code stores an `int` expression into a narrower member is truncated with an
  explicit `% 256` or `% 65536`.
* `int` members are integers.
* Handlers that return a value return the new device together with the value.
* `logerror` diagnostics do not touch the device and are left out.
-/

namespace HD61830

/-! ## Constants -/

def INSTRUCTION_MODE_CONTROL : Nat := 0
def INSTRUCTION_CHARACTER_PITCH : Nat := 1
def INSTRUCTION_NUMBER_OF_CHARACTERS : Nat := 2
def INSTRUCTION_NUMBER_OF_TIME_DIVISIONS : Nat := 3
def INSTRUCTION_CURSOR_POSITION : Nat := 4
def INSTRUCTION_DISPLAY_START_LOW : Nat := 8
def INSTRUCTION_DISPLAY_START_HIGH : Nat := 9
def INSTRUCTION_CURSOR_ADDRESS_LOW : Nat := 10
def INSTRUCTION_CURSOR_ADDRESS_HIGH : Nat := 11
def INSTRUCTION_DISPLAY_DATA_WRITE : Nat := 12
def INSTRUCTION_DISPLAY_DATA_READ : Nat := 13
def INSTRUCTION_CLEAR_BIT : Nat := 14
def INSTRUCTION_SET_BIT : Nat := 15

/-- The table `CYCLES[]`: busy time of each instruction, in microseconds. -/
def CYCLES : List Int :=
  [4, 4, 4, 4, 4, -1, -1, -1, 4, 4, 4, 4, 6, 6, 36, 36]

def MODE_EXTERNAL_CG : Nat := 0x01
def MODE_GRAPHIC : Nat := 0x02
def MODE_CURSOR : Nat := 0x04
def MODE_BLINK : Nat := 0x08
def MODE_MASTER : Nat := 0x10
def MODE_DISPLAY_ON : Nat := 0x20

/-- The macro `BIT(x, n)`: bit `n` of `x`. -/
def BIT (x n : Nat) : Nat := (x >>> n) &&& 1

/-- Bitwise complement of a non-negative `int` value, as the 32-bit
two's-complement pattern the C operator `~` produces. -/
def cnot (x : Nat) : Nat := 0xFFFFFFFF ^^^ x

/-! ## Device state -/

/-- Modelled from the spec: the member declarations of `hd61830_device` live in
hd61830.h, which is not among the sources. The widths follow the spec's
DeviceRegisterState (instruction register and data latch are bytes, the cursor
address is 16-bit unsigned); the pitch and count registers and the blink
counter are `int`. `vram` is the device's own address space "videoram" (64K of
RAM by the default address map). `m_busy_timer` is the one-shot timer
allocated in `device_start`: `some us` while it is pending with a delay of
`us` microseconds, `none` while it is not pending (a TimedEvent is created on
arm or re-arm and destroyed when it fires without recurring). -/
structure hd61830_device where
  m_bf : Bool
  m_ir : Nat
  m_mcr : Nat
  m_dor : Nat
  m_dsa : Nat
  m_cac : Nat
  m_vp : Int
  m_hp : Int
  m_hn : Int
  m_nx : Int
  m_cp : Int
  m_blink : Int
  m_cursor : Bool
  vram : Nat → Nat
  m_busy_timer : Option Int

/-- The helper `readbyte`: read a byte of video RAM. -/
def readbyte (s : hd61830_device) (address : Nat) : Nat :=
  s.vram address

/-- The helper `writebyte`: write a byte of video RAM. -/
def writebyte (s : hd61830_device) (address data : Nat) : hd61830_device :=
  { s with vram := fun a => if a = address then data else s.vram a }

/-- Modelled from the spec: `timer_adjust_oneshot` belongs to the emulator core,
which is not among the sources. Arming (or re-arming) a one-shot timer leaves
exactly one pending event with the given delay. -/
def timer_adjust_oneshot (_timer : Option Int) (duration : Int) : Option Int :=
  some duration

/-- The macro `ATTOTIME_IN_USEC`; delays are kept in microseconds. -/
def ATTOTIME_IN_USEC (us : Int) : Int := us

/-- The method `device_reset`: display off, slave mode, default horizontal
pitch. -/
def device_reset (s : hd61830_device) : hd61830_device :=
  { s with
    m_mcr := (s.m_mcr &&& cnot (MODE_MASTER ||| MODE_DISPLAY_ON)) % 256
    m_hp := 6 }

/-- The method `device_timer`: the handler of timer events clears the busy
flag. -/
def device_timer (s : hd61830_device) : hd61830_device :=
  { s with m_bf := false }

/-- The method `set_busy_flag`: set the busy flag and arm the timer for
`CYCLES[m_ir]` microseconds. Indexing outside the table has no defined result
and yields `none`. -/
def set_busy_flag (s : hd61830_device) : Option hd61830_device :=
  match CYCLES[s.m_ir]? with
  | none => none
  | some c =>
    some { s with
      m_bf := true
      m_busy_timer := timer_adjust_oneshot s.m_busy_timer (ATTOTIME_IN_USEC c) }

/-- The handler `status_r`: status register read. -/
def status_r (s : hd61830_device) : hd61830_device × Nat :=
  (s, if s.m_bf then 0x80 else 0)

/-- The handler `control_w`: instruction register write. -/
def control_w (s : hd61830_device) (data : Nat) : hd61830_device :=
  { s with m_ir := data }

/-- The handler `data_r`: data register read. -/
def data_r (s : hd61830_device) : hd61830_device × Nat :=
  let data := s.m_dor
  let s1 := { s with m_dor := readbyte s s.m_cac }
  let s2 := { s1 with m_cac := (s1.m_cac + 1) % 65536 }
  (s2, data)

/-- The handler `data_w`: data register write. The `switch` on `m_ir` is a
chain of tests of the case labels; a `break` continues with `set_busy_flag`,
the `return` of the busy test and of the `default` case does not. -/
def data_w (s : hd61830_device) (data : Nat) : Option hd61830_device :=
  if s.m_bf then
    some s
  else if s.m_ir = INSTRUCTION_MODE_CONTROL then
    set_busy_flag { s with m_mcr := data }
  else if s.m_ir = INSTRUCTION_CHARACTER_PITCH then
    set_busy_flag { s with
      m_hp := ((data &&& 0x07) + 1 : Nat)
      m_vp := ((data >>> 4) + 1 : Nat) }
  else if s.m_ir = INSTRUCTION_NUMBER_OF_CHARACTERS then
    set_busy_flag { s with m_hn := ((data &&& 0x7f) + 1 : Nat) }
  else if s.m_ir = INSTRUCTION_NUMBER_OF_TIME_DIVISIONS then
    set_busy_flag { s with m_nx := ((data &&& 0x7f) + 1 : Nat) }
  else if s.m_ir = INSTRUCTION_CURSOR_POSITION then
    set_busy_flag { s with m_cp := ((data &&& 0x7f) + 1 : Nat) }
  else if s.m_ir = INSTRUCTION_DISPLAY_START_LOW then
    set_busy_flag { s with m_dsa := ((s.m_dsa &&& 0xff00) ||| data) % 65536 }
  else if s.m_ir = INSTRUCTION_DISPLAY_START_HIGH then
    set_busy_flag { s with m_dsa := ((data <<< 8) ||| (s.m_dsa &&& 0xff)) % 65536 }
  else if s.m_ir = INSTRUCTION_CURSOR_ADDRESS_LOW then
    if BIT s.m_cac 7 ≠ 0 ∧ ¬ (BIT data 7 ≠ 0) then
      set_busy_flag { s with m_cac := ((((s.m_cac >>> 8) + 1) <<< 8) ||| data) % 65536 }
    else
      set_busy_flag { s with m_cac := ((s.m_cac &&& 0xff00) ||| data) % 65536 }
  else if s.m_ir = INSTRUCTION_CURSOR_ADDRESS_HIGH then
    set_busy_flag { s with m_cac := ((data <<< 8) ||| (s.m_cac &&& 0xff)) % 65536 }
  else if s.m_ir = INSTRUCTION_DISPLAY_DATA_WRITE then
    let s1 := writebyte s s.m_cac data
    set_busy_flag { s1 with m_cac := (s1.m_cac + 1) % 65536 }
  else if s.m_ir = INSTRUCTION_CLEAR_BIT then
    let bit := data &&& 0x07
    let md := readbyte s s.m_cac
    let md := (md &&& cnot (1 <<< bit)) % 256
    let s1 := writebyte s s.m_cac md
    set_busy_flag { s1 with m_cac := (s1.m_cac + 1) % 65536 }
  else if s.m_ir = INSTRUCTION_SET_BIT then
    let bit := data &&& 0x07
    let md := readbyte s s.m_cac
    let md := (md ||| (1 <<< bit)) % 256
    let s1 := writebyte s s.m_cac md
    set_busy_flag { s1 with m_cac := (s1.m_cac + 1) % 65536 }
  else
    some s

/-! ## Rendering -/

/-- What the rendering code needs from outside the device: the read callback
of an external character generator (`m_in_rd_func`), the bytes of the ROM
region "hd61830", and the size of the screen. -/
structure render_env where
  in_rd : Nat → Nat
  rom : Nat → Nat
  height : Int
  width : Int

/-- One effect on the bitmap: a store through `BITMAP_ADDR16` at row `y`,
column `x`, or a `bitmap_fill`. -/
inductive draw_op where
  | plot (y x : Int) (pixel : Nat)
  | fill (color : Nat)
deriving DecidableEq, Repr

/-- The method `draw_scanline`: one graphics scanline. The `UINT16` read
address `ra` is post-incremented once per byte, so byte `sx` is read at
`ra + sx` modulo 65536. -/
def draw_scanline (s : hd61830_device) (y : Int) (ra : Nat) : List draw_op :=
  (List.range s.m_hn.toNat).flatMap fun (sx : Nat) =>
    let data := readbyte s ((ra + sx) % 65536)
    (List.range s.m_hp.toNat).map fun (x : Nat) =>
      draw_op.plot y ((sx : Int) * s.m_hp + (x : Int)) (BIT data x)

/-- The method `update_graphics`: graphics mode screen, an upper and a lower
half scanline per time division. -/
def update_graphics (s : hd61830_device) : List draw_op :=
  (List.range s.m_nx.toNat).flatMap fun (y : Nat) =>
    let rac1 := (((s.m_dsa : Int) + (y : Int) * s.m_hn) % 65536).toNat
    let rac2 := (((rac1 : Int) + s.m_nx * s.m_hn) % 65536).toNat
    draw_scanline s (y : Int) rac1 ++ draw_scanline s ((y : Int) + s.m_nx) rac2

/-- The address `draw_char` computes into the internal character generator
ROM for character code `md` and line `cl`. -/
def chargen_addr (md cl : Nat) : Nat :=
  if md ≥ 0x20 ∧ md < 0x80 ∧ cl < 7 then
    (md - 0x20) * 7 + cl
  else if md ≥ 0xa0 ∧ md < 0xe0 ∧ cl < 7 then
    96 * 7 + (md - 0xa0) * 7 + cl
  else if md ≥ 0xe0 ∧ cl < 11 then
    160 * 7 + (md - 0xe0) * 11 + cl
  else
    0

/-- The pixel `draw_char` computes for line `cl`, column `cr` of the character
cell at video RAM address `ma` holding character code `md`. -/
def char_pixel (env : render_env) (s : hd61830_device) (ma md cl cr : Nat) : Nat :=
  let data :=
    if s.m_mcr &&& MODE_EXTERNAL_CG ≠ 0 then
      env.in_rd ((cl <<< 12) ||| md)
    else
      env.rom (chargen_addr md cl)
  let cursor := s.m_mcr &&& MODE_CURSOR
  let blink := s.m_mcr &&& MODE_BLINK
  let pixel := BIT data cr
  if blink ≠ 0 ∧ ma = s.m_cac then
    let pixel := if ¬ (cursor ≠ 0) then (if s.m_cursor then pixel else 0) else pixel
    if cursor ≠ 0 ∧ (cl : Int) = s.m_cp then (if s.m_cursor then 1 else 0) else pixel
  else
    if cursor ≠ 0 ∧ (cl : Int) = s.m_cp then (if s.m_cursor then 1 else 0) else pixel

/-- The method `draw_char`: draw one character cell; a pixel is stored only
when it lies below the screen's height and left of its width. -/
def draw_char (env : render_env) (s : hd61830_device) (ma : Nat) (x y : Int) (md : Nat) :
    List draw_op :=
  (List.range s.m_vp.toNat).flatMap fun (cl : Nat) =>
    (List.range s.m_hp.toNat).flatMap fun (cr : Nat) =>
      let sy := y * s.m_vp + (cl : Int)
      let sx := x * s.m_hp + (cr : Int)
      if sy < env.height ∧ sx < env.width then
        [draw_op.plot sy sx (char_pixel env s ma md cl cr)]
      else
        []

/-- The method `update_text`: text mode screen. The row count `m_nx / m_vp` is
an `int` division, which has no result for `m_vp = 0`. -/
def update_text (env : render_env) (s : hd61830_device) : Option (List draw_op) :=
  if s.m_vp = 0 then
    none
  else
    some ((List.range (s.m_nx.tdiv s.m_vp).toNat).flatMap fun (y : Nat) =>
      (List.range s.m_hn.toNat).flatMap fun (x : Nat) =>
        let ma := (((y : Int) * s.m_hn + (x : Int)) % 65536).toNat
        let md := readbyte s ma
        draw_char env s ma (x : Int) (y : Int) md)

/-- The method `update_screen`: draw the frame, then advance the blink
counter and toggle the blink phase every 32 frames. -/
def update_screen (env : render_env) (s : hd61830_device) :
    Option (hd61830_device × List draw_op) :=
  let drawn : Option (List draw_op) :=
    if s.m_mcr &&& MODE_DISPLAY_ON ≠ 0 then
      if s.m_mcr &&& MODE_GRAPHIC ≠ 0 then
        some (update_graphics s)
      else
        update_text env s
    else
      some [draw_op.fill 0]
  match drawn with
  | none => none
  | some ops =>
    let s1 := { s with m_blink := s.m_blink + 1 }
    let s2 := if s1.m_blink = 0x20 then { s1 with m_blink := 0, m_cursor := !s1.m_cursor } else s1
    some (s2, ops)

/-! ## Sequences of accesses -/

/-- Modelled from the spec: the scheduler of the emulator core is not among the
sources. When the pending one-shot event of the busy timer reaches its fire
time it is consumed (it does not recur) and the device's `device_timer` runs;
a timer that is not pending never fires. -/
def busy_timer_expiry (s : hd61830_device) : Option hd61830_device :=
  match s.m_busy_timer with
  | none => none
  | some _ => some (device_timer { s with m_busy_timer := none })

/-- The accesses a driver and the emulator core make to the device. -/
inductive access where
  | control_w (data : Nat)
  | data_w (data : Nat)
  | data_r
  | status_r
  | device_reset
  | update_screen
  | device_timer
deriving DecidableEq, Repr

/-- Perform one access; `none` when the access has no defined result. -/
def step (env : render_env) (s : hd61830_device) : access → Option hd61830_device
  | access.control_w data => some (control_w s data)
  | access.data_w data => data_w s data
  | access.data_r => some (data_r s).1
  | access.status_r => some (status_r s).1
  | access.device_reset => some (device_reset s)
  | access.update_screen => (update_screen env s).map Prod.fst
  | access.device_timer => busy_timer_expiry s

/-- Perform a sequence of accesses from left to right. -/
def run (env : render_env) (s : hd61830_device) : List access → Option hd61830_device
  | [] => some s
  | a :: rest =>
    match step env s a with
    | none => none
    | some s1 => run env s1 rest

/-! ## Concrete devices used as test inputs -/

/-- A ready device: all registers zero, video RAM holding `a % 251` at address
`a`, pitch 6 by 8, 40 characters per line, 64 time divisions. -/
def ready_device : hd61830_device :=
  { m_bf := false, m_ir := 0, m_mcr := 0, m_dor := 0x5a, m_dsa := 0, m_cac := 0x1234,
    m_vp := 8, m_hp := 6, m_hn := 40, m_nx := 64, m_cp := 8, m_blink := 0,
    m_cursor := false, vram := fun a => a % 251, m_busy_timer := none }

/-- A busy device: `ready_device` in the middle of a display data write. -/
def busy_device : hd61830_device :=
  { ready_device with
    m_bf := true, m_ir := INSTRUCTION_DISPLAY_DATA_WRITE, m_busy_timer := some 6 }

/-- A ready device about to receive the low byte of a cursor address, with
bit 7 of the old cursor address set. -/
def cursor_low_device : hd61830_device :=
  { ready_device with m_ir := INSTRUCTION_CURSOR_ADDRESS_LOW, m_cac := 0x12c0 }

/-- A ready device about to execute SET_BIT with the cursor at the last
address of video RAM. -/
def set_bit_device : hd61830_device :=
  { ready_device with m_ir := INSTRUCTION_SET_BIT, m_cac := 0xffff }

/-- A ready device whose instruction register holds DISPLAY_DATA_READ, a code
that `data_w` does not handle. -/
def illegal_device : hd61830_device :=
  { ready_device with m_ir := INSTRUCTION_DISPLAY_DATA_READ }

/-- A ready device whose instruction register holds 5, a code without a case
in `data_w` and with the entry -1 in `CYCLES`. -/
def reserved_device : hd61830_device :=
  { ready_device with m_ir := 5 }

/-- The device `ready_device` becomes by a display data write of 0x41 followed
by a data read, a status read, a reset and one frame. -/
def after_write_device : hd61830_device :=
  { m_bf := true, m_ir := 12, m_mcr := 0, m_dor := 143, m_dsa := 0, m_cac := 0x1236,
    m_vp := 8, m_hp := 6, m_hn := 40, m_nx := 64, m_cp := 8, m_blink := 1,
    m_cursor := false, vram := fun a => if a = 0x1234 then 0x41 else a % 251,
    m_busy_timer := some 6 }

/-- A screen of 240 by 64 pixels with an all-ones external character generator
and an internal character generator ROM holding `a % 32` at address `a`. -/
def sample_env : render_env :=
  { in_rd := fun _ => 0xff, rom := fun a => a % 32, height := 64, width := 240 }

/-- A small text-mode device with the display on, the internal character
generator selected and cursor and blink off: one row of two character cells
of 2 by 2 pixels, both holding character code 0. -/
def small_text_device : hd61830_device :=
  { m_bf := false, m_ir := 0, m_mcr := MODE_DISPLAY_ON, m_dor := 0, m_dsa := 0, m_cac := 0,
    m_vp := 2, m_hp := 2, m_hn := 2, m_nx := 2, m_cp := 8, m_blink := 31,
    m_cursor := false, vram := fun _ => 0, m_busy_timer := none }

/-- A screen of 240 by 64 pixels whose internal character generator ROM holds
0xff at every address. -/
def ones_env : render_env :=
  { in_rd := fun _ => 0, rom := fun _ => 0xff, height := 64, width := 240 }

/-- The device `ready_device` becomes by 32 frames with the display off: the
blink counter is back at 0 and the blink phase is inverted. -/
def after_32_frames : hd61830_device :=
  { ready_device with m_cursor := true }

/-- The instruction codes of the accepted data writes of a sequence of
accesses, in order: a `data_w` is accepted when the busy flag is clear at the
time of the write, and its instruction is the `m_ir` of that time. -/
def accepted_writes (env : render_env) : hd61830_device → List access → List Nat
  | _, [] => []
  | s, a :: rest =>
    (match a with
      | access.data_w _ => if s.m_bf then [] else [s.m_ir]
      | _ => []) ++
    (match step env s a with
      | none => []
      | some s1 => accepted_writes env s1 rest)

/-- The value an access writes is a byte (`UINT8 data`). -/
def writes_byte : access → Bool
  | access.control_w data => decide (data < 256)
  | access.data_w data => decide (data < 256)
  | _ => true

/-- The geometry registers: the instruction that writes the register, the
register, and the largest value the instruction can give it. -/
def geometry_regs : List (Nat × (hd61830_device → Int) × Int) :=
  [(INSTRUCTION_CHARACTER_PITCH, fun s => s.m_hp, 8),
    (INSTRUCTION_CHARACTER_PITCH, fun s => s.m_vp, 16),
    (INSTRUCTION_NUMBER_OF_CHARACTERS, fun s => s.m_hn, 128),
    (INSTRUCTION_NUMBER_OF_TIME_DIVISIONS, fun s => s.m_nx, 128),
    (INSTRUCTION_CURSOR_POSITION, fun s => s.m_cp, 128)]

/-- A geometry register holds a value between 1 and its largest value. -/
def reg_ok (reg : Nat × (hd61830_device → Int) × Int) (s : hd61830_device) : Prop :=
  1 ≤ reg.2.1 s ∧ reg.2.1 s ≤ reg.2.2

/-- The pair of a character code and a line that selects a glyph line of the
internal character generator: a line below 7 of the codes 0x20..0x7f and
0xa0..0xdf, or a line below 11 of the codes 0xe0..0xff. -/
def glyph_line (md cl : Nat) : Prop :=
  (0x20 ≤ md ∧ md < 0x80 ∧ cl < 7) ∨ (0xa0 ≤ md ∧ md < 0xe0 ∧ cl < 7) ∨
  (0xe0 ≤ md ∧ md < 0x100 ∧ cl < 11)

/-- The five geometry registers are within the ranges of their
instructions. -/
def geometry_ok (s : hd61830_device) : Prop :=
  (1 ≤ s.m_hp ∧ s.m_hp ≤ 8) ∧ (1 ≤ s.m_vp ∧ s.m_vp ≤ 16) ∧ (1 ≤ s.m_hn ∧ s.m_hn ≤ 128) ∧
  (1 ≤ s.m_nx ∧ s.m_nx ≤ 128) ∧ (1 ≤ s.m_cp ∧ s.m_cp ≤ 128)

/-- A device before any geometry register has been written: the pitch and
count registers hold 0 and negative values. -/
def raw_device : hd61830_device :=
  { m_bf := false, m_ir := 0, m_mcr := 0x3f, m_dor := 0, m_dsa := 0, m_cac := 0,
    m_vp := 0, m_hp := 0, m_hn := -3, m_nx := 1000, m_cp := 0, m_blink := 0,
    m_cursor := false, vram := fun _ => 0, m_busy_timer := none }

/-- A driver's set-up of the geometry after a reset: character pitch 6 by 8,
40 characters per line, 64 time divisions, cursor position 8, each write
after the busy timer of the one before has expired. -/
def geometry_setup : List access :=
  [access.control_w 1, access.data_w 0x75, access.device_timer,
    access.control_w 2, access.data_w 39, access.device_timer,
    access.control_w 3, access.data_w 63, access.device_timer,
    access.control_w 4, access.data_w 7]

/-- The device `device_reset raw_device` becomes by `geometry_setup`. -/
def configured_device : hd61830_device :=
  { m_bf := true, m_ir := 4, m_mcr := 0x0f, m_dor := 0, m_dsa := 0, m_cac := 0,
    m_vp := 8, m_hp := 6, m_hn := 40, m_nx := 64, m_cp := 8, m_blink := 0,
    m_cursor := false, vram := fun _ => 0, m_busy_timer := some 4 }

/-- Set the cursor address with the low byte first: both writes are accepted,
the busy timer of the first expiring before the second. -/
def cursor_low_then_high (lo hi : Nat) : List access :=
  [access.control_w INSTRUCTION_CURSOR_ADDRESS_LOW, access.data_w lo, access.device_timer,
    access.control_w INSTRUCTION_CURSOR_ADDRESS_HIGH, access.data_w hi]

/-- Set the cursor address with the high byte first. -/
def cursor_high_then_low (hi lo : Nat) : List access :=
  [access.control_w INSTRUCTION_CURSOR_ADDRESS_HIGH, access.data_w hi, access.device_timer,
    access.control_w INSTRUCTION_CURSOR_ADDRESS_LOW, access.data_w lo]

/-- The number of `update_screen` accesses in a sequence of accesses. -/
def frames (ops : List access) : Nat :=
  ops.count access.update_screen

end HD61830

/-!
Commodore 64 CP/M cartridge (src/mess/machine/c64_cpm.c)

The cartridge holds a Z80 that shares the bus with the host CPU. Writes to the
cartridge select which of the two CPUs runs; the other one is held by its HALT
input line.
-/

namespace C64CPM

def CLEAR_LINE : Nat := 0
def ASSERT_LINE : Nat := 1

/-- The macro `BIT(x, n)`: bit `n` of `x`. -/
def BIT (x n : Nat) : Nat := (x >>> n) &&& 1

/-- Modelled from the spec: the member declarations of
`c64_cpm_cartridge_device` live in c64_cpm.h, which is not among the sources.
The three members the code uses are `int` flags (the spec's BusArbiter:
secondary_enabled, reset_pending, and the tracked bus-available signal). -/
structure c64_cpm_cartridge_device where
  m_enabled : Int
  m_ba : Int
  m_reset : Int
deriving DecidableEq, Repr

/-- The cartridge together with what it drives. Modelled from the spec: the CPU
devices are not among the sources; of the CPU-stepping abstraction the code
uses the HALT input line of the Z80 (`m_maincpu`) and of the host CPU
(`machine().firstcpu`), the Z80 reset and the Z80 program counter. `z80_resets`
counts the calls of `m_maincpu->reset()`. -/
structure cpm_machine where
  cart : c64_cpm_cartridge_device
  z80_halt : Nat
  host_halt : Nat
  z80_pc : Nat
  z80_resets : Nat
deriving DecidableEq, Repr

/-- Modelled from the spec: `m_maincpu->reset()` puts the program counter of the
Z80 at its reset vector, address 0; the emulated CPU is not among the
sources. -/
def z80_reset (m : cpm_machine) : cpm_machine :=
  { m with z80_pc := 0, z80_resets := m.z80_resets + 1 }

/-- The helper `update_signals`: drive the two HALT lines from `m_enabled`, and
reset the Z80 when it is enabled with a reset pending. -/
def update_signals (m : cpm_machine) : cpm_machine :=
  if m.cart.m_enabled ≠ 0 then
    let m1 := { m with z80_halt := CLEAR_LINE }
    let m2 := { m1 with host_halt := ASSERT_LINE }
    if m2.cart.m_reset ≠ 0 then
      let m3 := z80_reset m2
      let m4 := { m3 with z80_pc := 0 }
      { m4 with cart := { m4.cart with m_reset := 0 } }
    else
      m2
  else
    let m1 := { m with z80_halt := ASSERT_LINE }
    { m1 with host_halt := CLEAR_LINE }

/-- The method `device_reset`. -/
def device_reset (m : cpm_machine) : cpm_machine :=
  update_signals { m with cart := { m.cart with m_enabled := 0, m_reset := 1 } }

/-- The method `c64_cd_w`: cartridge data write; only a write with `io1` low
is decoded. Of the arguments only `data` and `io1` are used. -/
def c64_cd_w (m : cpm_machine) (data : Nat) (io1 : Int) : cpm_machine :=
  if io1 = 0 then
    update_signals
      { m with cart := { m.cart with m_enabled := if BIT data 0 ≠ 0 then 0 else 1 } }
  else
    m

/-- The method `c64_game_r`: GAME read; tracks the BA signal and returns 1. -/
def c64_game_r (m : cpm_machine) (ba : Int) : cpm_machine × Int :=
  if m.cart.m_ba ≠ ba then
    (update_signals { m with cart := { m.cart with m_ba := ba } }, 1)
  else
    (m, 1)

/-- An access to the host bus through the expansion slot (`m_slot`). -/
inductive slot_op where
  | dma_cd_r (addr : Nat)
  | dma_cd_w (addr data : Nat)
deriving DecidableEq, Repr

/-- The handler `dma_r`: a Z80 read. `slot_read` is what `m_slot->dma_cd_r`
returns for an address; the second component lists the accesses made to the
host bus. -/
def dma_r (slot_read : Nat → Nat) (m : cpm_machine) (offset : Nat) : Nat × List slot_op :=
  if m.cart.m_enabled ≠ 0 then
    let addr := ((offset + 0x1000) % 4294967296) &&& 0xffff
    (slot_read addr % 256, [slot_op.dma_cd_r addr])
  else
    (0xff, [])

/-- The handler `dma_w`: a Z80 write; returns the machine and the accesses made
to the host bus. -/
def dma_w (m : cpm_machine) (offset data : Nat) : cpm_machine × List slot_op :=
  if m.cart.m_enabled ≠ 0 then
    let addr := ((offset + 0x1000) % 4294967296) &&& 0xffff
    (m, [slot_op.dma_cd_w addr data])
  else
    (m, [])

/-- The calls a C64 makes to the cartridge. -/
inductive call where
  | c64_cd_w (data : Nat) (io1 : Int)
  | c64_game_r (ba : Int)
  | device_reset
deriving DecidableEq, Repr

/-- Perform one call. -/
def step (m : cpm_machine) : call → cpm_machine
  | call.c64_cd_w data io1 => c64_cd_w m data io1
  | call.c64_game_r ba => (c64_game_r m ba).1
  | call.device_reset => device_reset m

/-- The machines passed through by a sequence of calls, the starting machine
left out: the machine after the first call, after the second, and so on. -/
def trace (m : cpm_machine) : List call → List cpm_machine
  | [] => []
  | c :: rest => step m c :: trace (step m c) rest

/-- Perform a sequence of calls from left to right. -/
def run (m : cpm_machine) (calls : List call) : cpm_machine :=
  calls.foldl step m

/-- A call that does not enable the Z80: anything but a decoded cartridge
write with bit 0 of the data clear, and not a reset. -/
def keeps_disabled : call → Bool
  | call.c64_cd_w data io1 => decide (io1 ≠ 0) || decide (BIT data 0 ≠ 0)
  | call.c64_game_r _ => true
  | call.device_reset => false

/-- The two HALT lines are complementary and follow `m_enabled`, which is 0
or 1. -/
def halt_lines_ok (m : cpm_machine) : Prop :=
  (m.cart.m_enabled = 0 ∧ m.z80_halt = ASSERT_LINE ∧ m.host_halt = CLEAR_LINE) ∨
  (m.cart.m_enabled = 1 ∧ m.z80_halt = CLEAR_LINE ∧ m.host_halt = ASSERT_LINE)

/-- The Z80 is held with a reset pending, after `resets` resets so far. -/
def held_for_reset (resets : Nat) (m : cpm_machine) : Prop :=
  m.cart.m_enabled = 0 ∧ m.cart.m_reset = 1 ∧ m.z80_halt = ASSERT_LINE ∧
  m.host_halt = CLEAR_LINE ∧ m.z80_resets = resets

/-- The members of the cartridge that can be registered for state saving. -/
inductive member where
  | m_enabled
  | m_ba
  | m_reset
deriving DecidableEq, Repr

/-- The value of a member. -/
def member.get (d : c64_cpm_cartridge_device) : member → Int
  | member.m_enabled => d.m_enabled
  | member.m_ba => d.m_ba
  | member.m_reset => d.m_reset

/-- Store a value into a member. -/
def member.set (d : c64_cpm_cartridge_device) : member → Int → c64_cpm_cartridge_device
  | member.m_enabled, v => { d with m_enabled := v }
  | member.m_ba, v => { d with m_ba := v }
  | member.m_reset, v => { d with m_reset := v }

/-- The method `device_start`: the members registered with `save_item`. -/
def device_start : List member :=
  [member.m_enabled, member.m_ba]

/-- Modelled from the spec: the state-save system of the emulator core is not
among the sources. A snapshot holds the value of every registered member. -/
def save (d : c64_cpm_cartridge_device) : List (member × Int) :=
  device_start.map fun f => (f, member.get d f)

/-- Modelled from the spec: restoring a snapshot writes each saved value back
into its member of the running device and leaves every other member of the
running device as it is. -/
def restore (running : c64_cpm_cartridge_device) (snapshot : List (member × Int)) :
    c64_cpm_cartridge_device :=
  snapshot.foldl (fun d fv => member.set d fv.1 fv.2) running

/-- A machine as the constructor leaves it (`m_enabled` 0, `m_ba` 1, `m_reset`
not initialised, here 0), with neither HALT line asserted yet. -/
def power_on : cpm_machine :=
  { cart := { m_enabled := 0, m_ba := 1, m_reset := 0 },
    z80_halt := 0, host_halt := 0, z80_pc := 0x1234, z80_resets := 0 }

/-- A cartridge whose Z80 is running: enabled, no reset pending. -/
def running_cart : c64_cpm_cartridge_device :=
  { m_enabled := 1, m_ba := 1, m_reset := 0 }

end C64CPM

/-!
Videa Gridlee (src/mame/drivers/gridlee.c)

The interrupt timers of the driver and its trackball port.
-/

namespace Gridlee

def FIRQ_SCANLINE : Int := 92

/-- Modelled from the spec: the scheduler and the screen device are not among
the sources. A timer armed by `adjust(time_until_pos(vpos, hpos), param)` is
recorded by the beam position it will fire at and the parameter its callback
will receive; `hpos` and `param` are 0 when the call leaves them out. -/
structure timer_arm where
  vpos : Int
  hpos : Int
  param : Int
deriving DecidableEq, Repr

/-- Modelled from the spec: the declaration of `gridlee_state` lives in
includes/gridlee.h, which is not among the sources. Of the driver state: the
four interrupt timers (`none` while not armed), the two trackball arrays
(two `UINT8` entries each, indexed by the port offset) and the cocktail flip
flag; with them the IRQ and FIRQ input lines of "maincpu" that the callbacks
drive. -/
structure gridlee_state where
  irq_line : Bool
  firq_line : Bool
  m_irq_timer : Option timer_arm
  m_irq_off : Option timer_arm
  m_firq_timer : Option timer_arm
  m_firq_off : Option timer_arm
  m_last_analog_input : Nat → Nat
  m_last_analog_output : Nat → Nat
  m_cocktail_flip : Nat

/-- The callback `irq_off_tick`. -/
def irq_off_tick (st : gridlee_state) : gridlee_state :=
  { st with irq_line := false }

/-- The callback `irq_timer_tick`. The constant `GRIDLEE_HBSTART` is declared
in includes/gridlee.h and is taken as the argument `hbstart`. -/
def irq_timer_tick (hbstart : Int) (st : gridlee_state) (param : Int) : gridlee_state :=
  let st1 :=
    if param = 256 then
      { st with m_irq_timer := some { vpos := 64, hpos := 0, param := 64 } }
    else
      { st with m_irq_timer := some { vpos := param + 64, hpos := 0, param := param + 64 } }
  let st2 := { st1 with irq_line := true }
  { st2 with m_irq_off := some { vpos := param, hpos := hbstart, param := 0 } }

/-- The callback `firq_off_tick`. -/
def firq_off_tick (st : gridlee_state) : gridlee_state :=
  { st with firq_line := false }

/-- The callback `firq_timer_tick`. -/
def firq_timer_tick (hbstart : Int) (st : gridlee_state) : gridlee_state :=
  let st1 := { st with m_firq_timer := some { vpos := FIRQ_SCANLINE, hpos := 0, param := 0 } }
  let st2 := { st1 with firq_line := true }
  { st2 with m_firq_off := some { vpos := FIRQ_SCANLINE, hpos := hbstart, param := 0 } }

/-- The handler `analog_port_r`. `ports` is what `input_port_read` returns for
the entries of `portnames` (TRACK0_Y, TRACK0_X, TRACK1_Y, TRACK1_X), by
index. The handler returns a `UINT8`. -/
def analog_port_r (ports : Nat → Nat) (st : gridlee_state) (offset : Nat) :
    gridlee_state × Nat :=
  let newval : Nat := ports (offset + 2 * st.m_cocktail_flip) % 256
  let delta : Int := (newval : Int) - (st.m_last_analog_input offset : Int)
  let delta := if delta ≥ 0x80 then delta - 0x100 else delta
  let delta := if delta ≤ -0x80 then delta + 0x100 else delta
  if delta ≥ -1 ∧ delta ≤ 1 then
    (st, st.m_last_analog_output offset % 256)
  else
    let st1 :=
      { st with m_last_analog_input := fun i => if i = offset then newval else
          st.m_last_analog_input i }
    let sign : Nat := if delta < 0 then 0x10 else 0x00
    let magnitude : Int := if delta < 0 then -delta else delta
    let total : Nat := (((st1.m_last_analog_output offset : Int) + magnitude) % 256).toNat
    let st2 :=
      { st1 with m_last_analog_output := fun i => if i = offset then total else
          st1.m_last_analog_output i }
    (st2, ((st2.m_last_analog_output offset &&& 15) ||| sign) % 256)

/-- The handler `MACHINE_RESET( gridlee )`: start the timers that generate the
interrupts. -/
def MACHINE_RESET (st : gridlee_state) : gridlee_state :=
  let st1 := { st with m_irq_timer := some { vpos := 0, hpos := 0, param := 0 } }
  { st1 with m_firq_timer := some { vpos := FIRQ_SCANLINE, hpos := 0, param := 0 } }

/-- The four interrupt timers of the driver. -/
inductive timer_id where
  | irq_timer
  | irq_off
  | firq_timer
  | firq_off
deriving DecidableEq, Repr

/-- Modelled from the spec: the scheduler is not among the sources. When an
armed timer reaches its fire time it is consumed (it does not recur) and its
callback runs with the parameter the timer was armed with; a timer that is not
armed never fires. -/
def fire (hbstart : Int) (st : gridlee_state) : timer_id → Option gridlee_state
  | timer_id.irq_timer =>
    match st.m_irq_timer with
    | none => none
    | some a => some (irq_timer_tick hbstart { st with m_irq_timer := none } a.param)
  | timer_id.irq_off =>
    match st.m_irq_off with
    | none => none
    | some _ => some (irq_off_tick { st with m_irq_off := none })
  | timer_id.firq_timer =>
    match st.m_firq_timer with
    | none => none
    | some _ => some (firq_timer_tick hbstart { st with m_firq_timer := none })
  | timer_id.firq_off =>
    match st.m_firq_off with
    | none => none
    | some _ => some (firq_off_tick { st with m_firq_off := none })

/-- The parameter `irq_timer_tick` receives when a timer fires: one entry for
the IRQ timer, none for the other timers. -/
def tick_param (st : gridlee_state) : timer_id → List Int
  | timer_id.irq_timer =>
    match st.m_irq_timer with
    | none => []
    | some a => [a.param]
  | _ => []

/-- Let a sequence of timers fire, from left to right; the result is the final
state together with the parameters the calls of `irq_timer_tick` received, in
order. `none` when a timer of the sequence is not armed at its turn. -/
def run_timers (hbstart : Int) (st : gridlee_state) :
    List timer_id → Option (gridlee_state × List Int)
  | [] => some (st, [])
  | t :: rest =>
    match fire hbstart st t with
    | none => none
    | some st1 =>
      match run_timers hbstart st1 rest with
      | none => none
      | some r => some (r.1, tick_param st t ++ r.2)

/-- The schedule the interrupt documentation describes: tick 0 comes with
parameter 0, the ticks after it with 64, 128, 192, 256, 64, 128, ... -/
def irq_schedule (n : Nat) : Int :=
  if n = 0 then 0 else ((64 * ((n - 1) % 4 + 1) : Nat) : Int)

/-- The signed delta `analog_port_r` computes from the new trackball value and
the last one, after its two wrap adjustments. -/
def analog_delta (newval last : Nat) : Int :=
  let delta : Int := (newval : Int) - (last : Int)
  let delta := if delta ≥ 0x80 then delta - 0x100 else delta
  if delta ≤ -0x80 then delta + 0x100 else delta

def POLY17_BITS : Nat := 17
def POLY17_SIZE : Nat := (1 <<< POLY17_BITS) - 1
def POLY17_SHL : Nat := 7
def POLY17_SHR : Nat := 10
def POLY17_ADD : Nat := 0x18000

/-- The tables of `poly17_init`. `alloc` is the number of `UINT8` cells of the
one array allocated for `m_poly17`; `m_rand17` points `rand17` cells into it;
`cell a` is the content of cell `a`, `none` while the cell has never been
written (`auto_alloc_array` does not clear). -/
structure poly17_tables where
  alloc : Nat
  rand17 : Nat
  cell : Nat → Option Nat

/-- Store a byte into a cell. -/
def poke (cell : Nat → Option Nat) (a v : Nat) : Nat → Option Nat :=
  fun b => if b = a then some (v % 256) else cell b

/-- The generation loop of `poly17_init` with `n` iterations left, at
iteration `i` with polynomial state `x`: `*p++ = x & 1`, `*r++ = x >> 3`, then
the next `x` (a `UINT32`). `p` is cell `i`, `r` is cell `rand17 + i`. -/
def poly17_loop (rand17 : Nat) : Nat → Nat → Nat → (Nat → Option Nat) → (Nat → Option Nat)
  | 0, _, _, cell => cell
  | n + 1, i, x, cell =>
    let cell1 := poke cell i (x &&& 1)
    let cell2 := poke cell1 (rand17 + i) (x >>> 3)
    let x1 := (((x <<< POLY17_SHL) % 4294967296 + (x >>> POLY17_SHR) + POLY17_ADD) %
      4294967296) &&& POLY17_SIZE
    poly17_loop rand17 n (i + 1) x1 cell2

/-- The function `poly17_init`: allocate `2 * (POLY17_SIZE + 1)` cells, point
`m_rand17` at cell `POLY17_SIZE + 1` and run the loop for `i` from 0 below
`POLY17_SIZE`. -/
def poly17_init : poly17_tables :=
  { alloc := 2 * (POLY17_SIZE + 1)
    rand17 := POLY17_SIZE + 1
    cell := poly17_loop (POLY17_SIZE + 1) POLY17_SIZE 0 0 (fun _ => none) }

/-- The index `random_num_r` computes from the total cycle count of the main
CPU: the count is truncated to the `UINT32` `cc`, multiplied by 12.5 as
8 + 4 + 0.5 in `UINT32` arithmetic, and masked with `POLY17_SIZE`. -/
def noise_index (total_cycles : Nat) : Nat :=
  let cc := total_cycles % 4294967296
  let cc := ((cc <<< 3) % 4294967296 + (cc <<< 2) % 4294967296 + (cc >>> 1)) % 4294967296
  cc &&& POLY17_SIZE

/-- The handler `random_num_r`: the entry of `m_rand17` at the noise index;
`none` when that cell has never been written. -/
def random_num_r (tables : poly17_tables) (total_cycles : Nat) : Option Nat :=
  tables.cell (tables.rand17 + noise_index total_cycles)

/-- The driver state with no interrupt pending, no timer armed and both
trackball arrays zero. -/
def idle_state : gridlee_state :=
  { irq_line := false, firq_line := false, m_irq_timer := none, m_irq_off := none,
    m_firq_timer := none, m_firq_off := none, m_last_analog_input := fun _ => 0,
    m_last_analog_output := fun _ => 0, m_cocktail_flip := 0 }

/-- A trackball whose Y axis of player 1 reads 0x20 and whose other axes
read 0. -/
def moved_ports : Nat → Nat :=
  fun i => if i = 0 then 0x20 else 0

/-- The driver state whose last trackball input of axis 0 was 0xfe, with the
running total of that axis at 0x0e. -/
def wrap_state : gridlee_state :=
  { idle_state with
    m_last_analog_input := fun i => if i = 0 then 0xfe else 0
    m_last_analog_output := fun i => if i = 0 then 0x0e else 0 }

/-- A trackball whose Y axis of player 1 reads 0x01 and whose other axes
read 0. -/
def wrap_ports : Nat → Nat :=
  fun i => if i = 0 then 0x01 else 0

/-- A trackball whose Y axis of player 1 reads 0xfb and whose other axes
read 0. -/
def back_ports : Nat → Nat :=
  fun i => if i = 0 then 0xfb else 0

end Gridlee

/-!
Macintosh IIci/IIsi RAM-based video (src/mess/drivers/mac.c)

The RAMDAC of the RBV: an address write selects a palette entry, every three
component writes complete a colour.
-/

namespace MacRBV

/-- The file-scope variables of the RBV: `rbv_regs[256]`, `rbv_colors[3]`,
`rbv_count`, `rbv_clutoffs`, `rbv_immed10wr` and `rbv_palette[256]`. The arrays
are functions of the index; C does not check an index against the size of
its array, so a store at any index is possible. -/
structure rbv_state where
  rbv_regs : Nat → Nat
  rbv_colors : Nat → Nat
  rbv_count : Nat
  rbv_clutoffs : Nat
  rbv_immed10wr : Nat
  rbv_palette : Nat → Nat

/-- The number of entries of `rbv_colors`. -/
def RBV_COLORS_SIZE : Nat := 3

/-- The number of entries of `rbv_palette`. -/
def RBV_PALETTE_SIZE : Nat := 256

/-- What a RAMDAC write does outside the scalar variables: a store into
`rbv_colors`, a call of `palette_set_color`, a store into `rbv_palette`, each
with the index it uses. -/
inductive rbv_effect where
  | colors_store (index value : Nat)
  | palette_set_color (index rgb : Nat)
  | palette_store (index rgb : Nat)
deriving DecidableEq, Repr

/-- The handler `VIDEO_START( macrbv )`. -/
def VIDEO_START (st : rbv_state) : rbv_state :=
  let st1 := { st with rbv_regs := fun _ => 0 }
  let st2 := { st1 with rbv_count := 0 }
  let st3 := { st2 with rbv_clutoffs := 0 }
  let st4 := { st3 with rbv_immed10wr := 0 }
  { st4 with rbv_regs := fun i => if i = 2 then 0xff else st4.rbv_regs i }

/-- The handler `rbv_ramdac_w`. `data` is a `UINT32`; `make_rgb` is the macro
`MAKE_RGB` of the emulator core. The scalars are `UINT32`. -/
def rbv_ramdac_w (make_rgb : Nat → Nat → Nat → Nat) (st : rbv_state) (offset data : Nat) :
    rbv_state × List rbv_effect :=
  if offset = 0 then
    let st1 := { st with rbv_clutoffs := (data % 4294967296) >>> 24 }
    ({ st1 with rbv_count := 0 }, [])
  else
    let value := (data % 4294967296) >>> 24
    let index := st.rbv_count
    let st1 :=
      { st with
        rbv_colors := fun i => if i = index then value else st.rbv_colors i
        rbv_count := (st.rbv_count + 1) % 4294967296 }
    if st1.rbv_count = 3 then
      let rgb := make_rgb (st1.rbv_colors 0) (st1.rbv_colors 1) (st1.rbv_colors 2)
      let st2 :=
        { st1 with
          rbv_palette := fun i => if i = st1.rbv_clutoffs then rgb else st1.rbv_palette i }
      let st3 := { st2 with rbv_clutoffs := (st2.rbv_clutoffs + 1) % 4294967296 }
      ({ st3 with rbv_count := 0 },
        [rbv_effect.colors_store index value,
          rbv_effect.palette_set_color st1.rbv_clutoffs rgb,
          rbv_effect.palette_store st1.rbv_clutoffs rgb])
    else
      (st1, [rbv_effect.colors_store index value])

/-- Perform a sequence of RAMDAC writes, each an offset and a data word, from
left to right; the result is the final state and all effects in order. -/
def run_writes (make_rgb : Nat → Nat → Nat → Nat) (st : rbv_state) :
    List (Nat × Nat) → rbv_state × List rbv_effect
  | [] => (st, [])
  | w :: rest =>
    let r1 := rbv_ramdac_w make_rgb st w.1 w.2
    let r2 := run_writes make_rgb r1.1 rest
    (r2.1, r1.2 ++ r2.2)

/-- The usual packing of `MAKE_RGB`: alpha 0xff, then red, green, blue. -/
def pack_rgb (r g b : Nat) : Nat :=
  (0xff <<< 24) ||| ((r &&& 0xff) <<< 16) ||| ((g &&& 0xff) <<< 8) ||| (b &&& 0xff)

/-- The variables before `VIDEO_START` has run: all zero. -/
def zero_state : rbv_state :=
  { rbv_regs := fun _ => 0, rbv_colors := fun _ => 0, rbv_count := 0, rbv_clutoffs := 0,
    rbv_immed10wr := 0, rbv_palette := fun _ => 0 }

/-- Select palette entry 0xff, then write two colours (six components) without
a new address write. -/
def two_colours_at_last_entry : List (Nat × Nat) :=
  [(0, 0xff000000), (1, 0x11000000), (1, 0x22000000), (1, 0x33000000),
    (1, 0x44000000), (1, 0x55000000), (1, 0x66000000)]

end MacRBV

namespace HD61830

/-! ## Register interface -/

/-- C1 (busy gating). With the busy flag set, `data_w` returns the device it was
given, for every written value: the cursor address, the mode register, video
RAM, the instruction register, the data latch, the display start address, the
pitch and count registers, the busy flag and the busy timer are all as they
were. -/
theorem data_w_busy_unchanged (s : hd61830_device) (data : Nat) (hbusy : s.m_bf = true) :
    data_w s data = some s := by
  simp [data_w, hbusy]

/-- The busy-gating theorem applied to `busy_device` and the byte 0x55. -/
theorem data_w_busy_unchanged_witness :
    busy_device.m_bf = true ∧ data_w busy_device 0x55 = some busy_device :=
  ⟨rfl, data_w_busy_unchanged busy_device 0x55 rfl⟩

/-- C2 (one-behind latch). For every device, busy or not, `data_r` returns the
value the data latch `m_dor` held before the call, loads `m_dor` with the video
RAM byte at the cursor address as it was at the call, and then increments the
16-bit cursor address; the busy flag, the instruction register, the mode
register and video RAM are unchanged. -/
theorem data_r_one_behind (s : hd61830_device) :
    (data_r s).2 = s.m_dor ∧
    (data_r s).1.m_dor = s.vram s.m_cac ∧
    (data_r s).1.m_cac = (s.m_cac + 1) % 65536 ∧
    (data_r s).1.m_bf = s.m_bf ∧
    (data_r s).1.m_ir = s.m_ir ∧
    (data_r s).1.m_mcr = s.m_mcr ∧
    (data_r s).1.vram = s.vram :=
  ⟨rfl, rfl, rfl, rfl, rfl, rfl, rfl⟩

/-- C3 (cursor pipelining). If video RAM holds `V` at address `A` and the cursor
address is `A`, the first `data_r` returns the stale latch value and the second
`data_r`, made right after it, returns `V`. -/
theorem data_r_round_trip (s : hd61830_device) (A V : Nat)
    (hmem : s.vram A = V) (hcur : s.m_cac = A) :
    (data_r s).2 = s.m_dor ∧ (data_r (data_r s).1).2 = V := by
  subst hcur
  exact ⟨rfl, hmem⟩

/-- The pipelining theorem applied to `ready_device`, whose cursor is at 0x1234
where video RAM holds 142 while the latch holds 0x5a: the first read returns
0x5a, not 142. -/
theorem data_r_round_trip_witness :
    (ready_device.vram 0x1234 = 142 ∧ ready_device.m_cac = 0x1234) ∧
    ((data_r ready_device).2 = ready_device.m_dor ∧
      (data_r (data_r ready_device).1).2 = 142) ∧
    (data_r ready_device).2 ≠ 142 :=
  ⟨⟨by decide, rfl⟩, data_r_round_trip ready_device 0x1234 142 (by decide) rfl, by decide⟩

/-- C4 (instruction latch). For every device, busy or not, and every written
value, `control_w` makes the instruction register equal to the value and
changes no other member: not the busy flag, the cursor address, the data
latch, the mode register, video RAM or the busy timer. -/
theorem control_w_latches (s : hd61830_device) (data : Nat) :
    (control_w s data).m_ir = data ∧
    (control_w s data).m_bf = s.m_bf ∧
    (control_w s data).m_cac = s.m_cac ∧
    (control_w s data).m_dor = s.m_dor ∧
    (control_w s data).m_mcr = s.m_mcr ∧
    (control_w s data).vram = s.vram ∧
    (control_w s data).m_busy_timer = s.m_busy_timer ∧
    control_w s data = { s with m_ir := data } :=
  ⟨rfl, rfl, rfl, rfl, rfl, rfl, rfl, rfl⟩

/-- C5 (status read). For every device `status_r` returns 0x80 when the busy
flag is set and 0 otherwise, so no bit other than bit 7 is ever set, and it
returns the device unchanged. -/
theorem status_r_pure (s : hd61830_device) :
    (status_r s).2 = (if s.m_bf = true then 0x80 else 0) ∧
    (status_r s).2 &&& 0x7f = 0 ∧
    (status_r s).1 = s := by
  cases hb : s.m_bf
  · simp [status_r, hb]
  · simp [status_r, hb]
    decide

/-! ## Bit-level facts used by the addressed instructions -/

theorem BIT_ne_zero_iff (x n : Nat) : BIT x n ≠ 0 ↔ x.testBit n = true := by
  unfold BIT
  rw [Nat.testBit_to_div_mod, Nat.shiftRight_eq_div_pow, Nat.and_one_is_mod]
  simp

theorem shiftLeft8_or (a d : Nat) (hd : d < 256) : (a <<< 8) ||| d = a * 256 + d := by
  have h := Nat.mul_add_lt_is_or (i := 8) (b := d) (by simpa using hd) a
  rw [Nat.shiftLeft_eq, Nat.mul_comm a]
  exact h.symm

theorem and_ff00 (c : Nat) : c &&& 0xff00 = (c / 256 % 256) * 256 := by
  have e1 : (0xff00 : Nat) = (2 ^ 8 - 1) <<< 8 := by decide
  have e2 : (c / 256 % 256) * 256 = ((c >>> 8) % 2 ^ 8) <<< 8 := by
    rw [Nat.shiftLeft_eq, Nat.shiftRight_eq_div_pow]
    norm_num
  rw [e1, e2]
  apply Nat.eq_of_testBit_eq
  intro i
  simp only [Nat.testBit_and, Nat.testBit_shiftLeft, Nat.testBit_two_pow_sub_one,
    Nat.testBit_mod_two_pow, Nat.testBit_shiftRight]
  by_cases hi : i ≥ 8
  · have : 8 + (i - 8) = i := by omega
    simp [hi, this, Bool.and_comm]
  · simp [hi]

theorem and_ff (c : Nat) : c &&& 0xff = c % 256 :=
  Nat.and_pow_two_sub_one_eq_mod c 8

theorem or_bit_byte (old b : Nat) (hold : old < 256) (hb : b < 8) :
    (old ||| (1 <<< b)) % 256 = old ||| (1 <<< b) := by
  apply Nat.mod_eq_of_lt
  have h1 : 1 <<< b < 2 ^ 8 := by
    rw [Nat.one_shiftLeft]
    exact Nat.pow_lt_pow_right (by decide) hb
  exact Nat.or_lt_two_pow (by simpa using hold) h1

theorem and_cnot_testBit (old b i : Nat) (hold : old < 256) :
    ((old &&& cnot (1 <<< b)) % 256).testBit i = (old.testBit i && decide (i ≠ b)) := by
  have e : (256 : Nat) = 2 ^ 8 := by decide
  have e3 : (0xFFFFFFFF : Nat) = 2 ^ 32 - 1 := by decide
  unfold cnot
  rw [e, e3, Nat.testBit_mod_two_pow, Nat.testBit_and, Nat.testBit_xor,
    Nat.testBit_two_pow_sub_one, Nat.one_shiftLeft, Nat.testBit_two_pow]
  by_cases hi : i < 8
  · have h32 : i < 32 := by omega
    by_cases hib : b = i
    · simp [hi, h32, hib]
    · have hbi : ¬ i = b := fun h => hib h.symm
      simp [hi, h32, hib, hbi]
  · have hz : old.testBit i = false := by
      apply Nat.testBit_lt_two_pow
      calc old < 2 ^ 8 := by simpa using hold
        _ ≤ 2 ^ i := Nat.pow_le_pow_right (by decide) (by omega)
    simp [hi, hz]

theorem and7_lt (d : Nat) : d &&& 0x07 < 8 := by
  have h := Nat.and_pow_two_sub_one_eq_mod d 3
  have h2 : d &&& 0x07 = d % 8 := by simpa using h
  omega

/-! ## Addressed instructions -/

theorem data_w_cursor_address_low (s : hd61830_device) (d : Nat)
    (hready : s.m_bf = false) (hir : s.m_ir = 10) :
    data_w s d = some { s with
      m_cac :=
        if BIT s.m_cac 7 ≠ 0 ∧ ¬ (BIT d 7 ≠ 0) then
          ((((s.m_cac >>> 8) + 1) <<< 8) ||| d) % 65536
        else ((s.m_cac &&& 0xff00) ||| d) % 65536
      m_bf := true
      m_busy_timer := some 4 } := by
  have hcyc : CYCLES[(10 : Nat)]? = some 4 := by decide
  simp +decide only [data_w, hready, hir, ↓reduceIte, if_false, if_true,
    INSTRUCTION_MODE_CONTROL, INSTRUCTION_CHARACTER_PITCH,
    INSTRUCTION_NUMBER_OF_CHARACTERS, INSTRUCTION_NUMBER_OF_TIME_DIVISIONS,
    INSTRUCTION_CURSOR_POSITION, INSTRUCTION_DISPLAY_START_LOW,
    INSTRUCTION_DISPLAY_START_HIGH, INSTRUCTION_CURSOR_ADDRESS_LOW, set_busy_flag, hcyc,
    timer_adjust_oneshot, ATTOTIME_IN_USEC]
  split_ifs <;> rfl

/-- C6 (page carry of CURSOR_ADDRESS_LOW). On a ready device whose instruction
register holds CURSOR_ADDRESS_LOW, writing the byte `d` is accepted and makes
`d` the low byte of the 16-bit cursor address; the high byte becomes the old
high byte plus one modulo 256 exactly when bit 7 of the old cursor address
was set and bit 7 of `d` is clear, and keeps its old value otherwise. -/
theorem cursor_address_low_page_carry (s : hd61830_device) (d : Nat)
    (hready : s.m_bf = false) (hir : s.m_ir = INSTRUCTION_CURSOR_ADDRESS_LOW)
    (hd : d < 256) (hc : s.m_cac < 65536) :
    ∃ s1, data_w s d = some s1 ∧
      s1.m_cac % 256 = d ∧
      s1.m_cac / 256 =
        (if s.m_cac.testBit 7 = true ∧ d.testBit 7 = false then (s.m_cac / 256 + 1) % 256
         else s.m_cac / 256) := by
  refine ⟨_, data_w_cursor_address_low s d hready hir, ?_⟩
  have h1 : s.m_cac &&& 0xff00 = (s.m_cac / 256 % 256) <<< 8 := by
    rw [and_ff00, Nat.shiftLeft_eq]
  by_cases hcond : BIT s.m_cac 7 ≠ 0 ∧ ¬ (BIT d 7 ≠ 0)
  · have hcond2 : s.m_cac.testBit 7 = true ∧ d.testBit 7 = false := by
      refine ⟨(BIT_ne_zero_iff _ _).1 hcond.1, ?_⟩
      have h2 := hcond.2
      rw [BIT_ne_zero_iff] at h2
      simpa using h2
    simp only [if_pos hcond, if_pos hcond2]
    rw [shiftLeft8_or _ _ hd, Nat.shiftRight_eq_div_pow]
    omega
  · have hcond2 : ¬ (s.m_cac.testBit 7 = true ∧ d.testBit 7 = false) := by
      intro h
      apply hcond
      refine ⟨(BIT_ne_zero_iff _ _).2 h.1, ?_⟩
      rw [BIT_ne_zero_iff]
      simp [h.2]
    simp only [if_neg hcond, if_neg hcond2]
    rw [h1, shiftLeft8_or _ _ hd]
    omega

/-- The page-carry theorem applied to a cursor address of 0x12c0 and the byte
0x10: the carry case. -/
theorem cursor_address_low_page_carry_witness :
    ∃ s1, data_w cursor_low_device 0x10 = some s1 ∧
      s1.m_cac % 256 = 0x10 ∧
      s1.m_cac / 256 =
        (if cursor_low_device.m_cac.testBit 7 = true ∧ (0x10 : Nat).testBit 7 = false then
          (cursor_low_device.m_cac / 256 + 1) % 256
         else cursor_low_device.m_cac / 256) :=
  cursor_address_low_page_carry cursor_low_device 0x10 rfl rfl (by decide) (by decide)

theorem data_w_display_data_write (s : hd61830_device) (d : Nat)
    (hready : s.m_bf = false) (hir : s.m_ir = 12) :
    data_w s d = some { s with
      vram := fun a => if a = s.m_cac then d else s.vram a
      m_cac := (s.m_cac + 1) % 65536
      m_bf := true
      m_busy_timer := some 6 } := by
  have hcyc : CYCLES[(12 : Nat)]? = some 6 := by decide
  simp +decide only [data_w, hready, hir, ↓reduceIte, if_false, if_true,
    INSTRUCTION_MODE_CONTROL, INSTRUCTION_CHARACTER_PITCH,
    INSTRUCTION_NUMBER_OF_CHARACTERS, INSTRUCTION_NUMBER_OF_TIME_DIVISIONS,
    INSTRUCTION_CURSOR_POSITION, INSTRUCTION_DISPLAY_START_LOW,
    INSTRUCTION_DISPLAY_START_HIGH, INSTRUCTION_CURSOR_ADDRESS_LOW,
    INSTRUCTION_CURSOR_ADDRESS_HIGH, INSTRUCTION_DISPLAY_DATA_WRITE, set_busy_flag, hcyc,
    timer_adjust_oneshot, ATTOTIME_IN_USEC, writebyte]

theorem data_w_clear_bit (s : hd61830_device) (d : Nat)
    (hready : s.m_bf = false) (hir : s.m_ir = 14) :
    data_w s d = some { s with
      vram := fun a =>
        if a = s.m_cac then (s.vram s.m_cac &&& cnot (1 <<< (d &&& 0x07))) % 256 else s.vram a
      m_cac := (s.m_cac + 1) % 65536
      m_bf := true
      m_busy_timer := some 36 } := by
  have hcyc : CYCLES[(14 : Nat)]? = some 36 := by decide
  simp +decide only [data_w, hready, hir, ↓reduceIte, if_false, if_true,
    INSTRUCTION_MODE_CONTROL, INSTRUCTION_CHARACTER_PITCH,
    INSTRUCTION_NUMBER_OF_CHARACTERS, INSTRUCTION_NUMBER_OF_TIME_DIVISIONS,
    INSTRUCTION_CURSOR_POSITION, INSTRUCTION_DISPLAY_START_LOW,
    INSTRUCTION_DISPLAY_START_HIGH, INSTRUCTION_CURSOR_ADDRESS_LOW,
    INSTRUCTION_CURSOR_ADDRESS_HIGH, INSTRUCTION_DISPLAY_DATA_WRITE, INSTRUCTION_CLEAR_BIT,
    set_busy_flag, hcyc, timer_adjust_oneshot, ATTOTIME_IN_USEC, writebyte, readbyte]

theorem data_w_set_bit (s : hd61830_device) (d : Nat)
    (hready : s.m_bf = false) (hir : s.m_ir = 15) :
    data_w s d = some { s with
      vram := fun a =>
        if a = s.m_cac then (s.vram s.m_cac ||| (1 <<< (d &&& 0x07))) % 256 else s.vram a
      m_cac := (s.m_cac + 1) % 65536
      m_bf := true
      m_busy_timer := some 36 } := by
  have hcyc : CYCLES[(15 : Nat)]? = some 36 := by decide
  simp +decide only [data_w, hready, hir, ↓reduceIte, if_false, if_true,
    INSTRUCTION_MODE_CONTROL, INSTRUCTION_CHARACTER_PITCH,
    INSTRUCTION_NUMBER_OF_CHARACTERS, INSTRUCTION_NUMBER_OF_TIME_DIVISIONS,
    INSTRUCTION_CURSOR_POSITION, INSTRUCTION_DISPLAY_START_LOW,
    INSTRUCTION_DISPLAY_START_HIGH, INSTRUCTION_CURSOR_ADDRESS_LOW,
    INSTRUCTION_CURSOR_ADDRESS_HIGH, INSTRUCTION_DISPLAY_DATA_WRITE, INSTRUCTION_CLEAR_BIT,
    INSTRUCTION_SET_BIT, set_busy_flag, hcyc, timer_adjust_oneshot, ATTOTIME_IN_USEC,
    writebyte, readbyte]

/-- C7 (addressed writes). On a ready device whose cursor cell holds the byte
`old`, writing `d` is accepted and changes exactly the video RAM cell at the
cursor address as it was before the write: DISPLAY_DATA_WRITE stores `d`,
SET_BIT stores `old` with bit `d & 7` set, CLEAR_BIT stores `old` with bit
`d & 7` cleared; every other cell keeps its value, and the cursor address is
incremented only after the store. -/
theorem addressed_write_one_cell (s : hd61830_device) (d : Nat)
    (hready : s.m_bf = false) (hold : s.vram s.m_cac < 256) :
    (s.m_ir = INSTRUCTION_DISPLAY_DATA_WRITE →
      ∃ s1, data_w s d = some s1 ∧ s1.vram s.m_cac = d ∧
        (∀ a, a ≠ s.m_cac → s1.vram a = s.vram a) ∧ s1.m_cac = (s.m_cac + 1) % 65536) ∧
    (s.m_ir = INSTRUCTION_SET_BIT →
      ∃ s1, data_w s d = some s1 ∧ s1.vram s.m_cac = s.vram s.m_cac ||| (1 <<< (d &&& 7)) ∧
        (∀ a, a ≠ s.m_cac → s1.vram a = s.vram a) ∧ s1.m_cac = (s.m_cac + 1) % 65536) ∧
    (s.m_ir = INSTRUCTION_CLEAR_BIT →
      ∃ s1, data_w s d = some s1 ∧
        s1.vram s.m_cac = s.vram s.m_cac &&& (0xff ^^^ (1 <<< (d &&& 7))) ∧
        (∀ i, (s1.vram s.m_cac).testBit i =
          ((s.vram s.m_cac).testBit i && decide (i ≠ d &&& 7))) ∧
        (∀ a, a ≠ s.m_cac → s1.vram a = s.vram a) ∧ s1.m_cac = (s.m_cac + 1) % 65536) := by
  refine ⟨fun hir => ?_, fun hir => ?_, fun hir => ?_⟩
  · refine ⟨_, data_w_display_data_write s d hready hir, ?_, ?_, rfl⟩
    · simp
    · intro a ha
      simp [ha]
  · refine ⟨_, data_w_set_bit s d hready hir, ?_, ?_, rfl⟩
    · simp only [↓reduceIte]
      exact or_bit_byte _ _ hold (and7_lt d)
    · intro a ha
      simp [ha]
  · have hbits : ∀ i, ((s.vram s.m_cac &&& cnot (1 <<< (d &&& 0x07))) % 256).testBit i =
        ((s.vram s.m_cac).testBit i && decide (i ≠ d &&& 7)) :=
      fun i => and_cnot_testBit _ _ i hold
    refine ⟨_, data_w_clear_bit s d hready hir, ?_, ?_, ?_, rfl⟩
    · simp only [↓reduceIte]
      apply Nat.eq_of_testBit_eq
      intro i
      rw [hbits i]
      have e : (0xff : Nat) = 2 ^ 8 - 1 := by decide
      rw [Nat.testBit_and, Nat.testBit_xor, e, Nat.testBit_two_pow_sub_one, Nat.one_shiftLeft,
        Nat.testBit_two_pow]
      by_cases hi : i < 8
      · by_cases hib : d &&& 7 = i
        · simp [hi, hib]
        · have hbi : ¬ i = d &&& 7 := fun h => hib h.symm
          simp [hi, hib, hbi]
      · have hz : (s.vram s.m_cac).testBit i = false := by
          apply Nat.testBit_lt_two_pow
          calc s.vram s.m_cac < 2 ^ 8 := by simpa using hold
            _ ≤ 2 ^ i := Nat.pow_le_pow_right (by decide) (by omega)
        simp [hz]
    · intro i
      simp only [↓reduceIte]
      exact hbits i
    · intro a ha
      simp [ha]

/-- The addressed-write theorem applied to SET_BIT with the byte 0x0b (bit 3)
at cursor address 0xffff, where video RAM holds 24. -/
theorem addressed_write_one_cell_witness :
    (set_bit_device.m_bf = false ∧ set_bit_device.vram set_bit_device.m_cac < 256) ∧
    ∃ s1, data_w set_bit_device 0x0b = some s1 ∧
      s1.vram set_bit_device.m_cac =
        set_bit_device.vram set_bit_device.m_cac ||| (1 <<< (0x0b &&& 7)) ∧
      (∀ a, a ≠ set_bit_device.m_cac → s1.vram a = set_bit_device.vram a) ∧
      s1.m_cac = (set_bit_device.m_cac + 1) % 65536 :=
  ⟨⟨rfl, by decide⟩, (addressed_write_one_cell set_bit_device 0x0b rfl (by decide)).2.1 rfl⟩

theorem set_busy_flag_eq (s : hd61830_device) (h : s.m_ir < 16) :
    ∃ c, set_busy_flag s = some { s with m_bf := true, m_busy_timer := some c } := by
  have hlen : s.m_ir < CYCLES.length := by simpa [CYCLES] using h
  refine ⟨CYCLES[s.m_ir], ?_⟩
  simp [set_busy_flag, List.getElem?_eq_getElem hlen, timer_adjust_oneshot, ATTOTIME_IN_USEC]

/-- C8 (cursor auto-increment). Every `data_r`, and every accepted `data_w`
whose instruction is DISPLAY_DATA_WRITE, SET_BIT or CLEAR_BIT, replaces the
cursor address by its successor modulo 65536; an accepted `data_w` with any
instruction other than these three and the two cursor-address instructions
leaves the cursor address as it was. -/
theorem cursor_auto_increment (s : hd61830_device) (d : Nat) :
    (data_r s).1.m_cac = (s.m_cac + 1) % 65536 ∧
    (s.m_bf = false →
      (s.m_ir = INSTRUCTION_DISPLAY_DATA_WRITE ∨ s.m_ir = INSTRUCTION_SET_BIT ∨
        s.m_ir = INSTRUCTION_CLEAR_BIT) →
      ∃ s1, data_w s d = some s1 ∧ s1.m_cac = (s.m_cac + 1) % 65536) ∧
    (s.m_bf = false →
      ¬ (s.m_ir = INSTRUCTION_DISPLAY_DATA_WRITE ∨ s.m_ir = INSTRUCTION_SET_BIT ∨
        s.m_ir = INSTRUCTION_CLEAR_BIT ∨ s.m_ir = INSTRUCTION_CURSOR_ADDRESS_LOW ∨
        s.m_ir = INSTRUCTION_CURSOR_ADDRESS_HIGH) →
      ∃ s1, data_w s d = some s1 ∧ s1.m_cac = s.m_cac) := by
  refine ⟨rfl, fun hready hir => ?_, fun hready hir => ?_⟩
  · rcases hir with hir | hir | hir
    · exact ⟨_, data_w_display_data_write s d hready hir, rfl⟩
    · exact ⟨_, data_w_set_bit s d hready hir, rfl⟩
    · exact ⟨_, data_w_clear_bit s d hready hir, rfl⟩
  · simp only [INSTRUCTION_DISPLAY_DATA_WRITE, INSTRUCTION_SET_BIT, INSTRUCTION_CLEAR_BIT,
      INSTRUCTION_CURSOR_ADDRESS_LOW, INSTRUCTION_CURSOR_ADDRESS_HIGH, not_or] at hir
    obtain ⟨h12, h15, h14, h10, h11⟩ := hir
    simp only [data_w, hready, Bool.false_eq_true, ↓reduceIte, h10, h11, h12, h14, h15,
      INSTRUCTION_MODE_CONTROL, INSTRUCTION_CHARACTER_PITCH,
      INSTRUCTION_NUMBER_OF_CHARACTERS, INSTRUCTION_NUMBER_OF_TIME_DIVISIONS,
      INSTRUCTION_CURSOR_POSITION, INSTRUCTION_DISPLAY_START_LOW,
      INSTRUCTION_DISPLAY_START_HIGH, INSTRUCTION_CURSOR_ADDRESS_LOW,
      INSTRUCTION_CURSOR_ADDRESS_HIGH, INSTRUCTION_DISPLAY_DATA_WRITE, INSTRUCTION_CLEAR_BIT,
      INSTRUCTION_SET_BIT]
    split_ifs with h0 h1 h2 h3 h4 h8 h9
    · obtain ⟨c, hc⟩ := set_busy_flag_eq { s with m_mcr := d } (by show s.m_ir < 16; omega)
      exact ⟨_, hc, rfl⟩
    · obtain ⟨c, hc⟩ := set_busy_flag_eq
        { s with m_hp := ((d &&& 0x07) + 1 : Nat), m_vp := ((d >>> 4) + 1 : Nat) }
        (by show s.m_ir < 16; omega)
      exact ⟨_, hc, rfl⟩
    · obtain ⟨c, hc⟩ := set_busy_flag_eq { s with m_hn := ((d &&& 0x7f) + 1 : Nat) }
        (by show s.m_ir < 16; omega)
      exact ⟨_, hc, rfl⟩
    · obtain ⟨c, hc⟩ := set_busy_flag_eq { s with m_nx := ((d &&& 0x7f) + 1 : Nat) }
        (by show s.m_ir < 16; omega)
      exact ⟨_, hc, rfl⟩
    · obtain ⟨c, hc⟩ := set_busy_flag_eq { s with m_cp := ((d &&& 0x7f) + 1 : Nat) }
        (by show s.m_ir < 16; omega)
      exact ⟨_, hc, rfl⟩
    · obtain ⟨c, hc⟩ := set_busy_flag_eq
        { s with m_dsa := ((s.m_dsa &&& 0xff00) ||| d) % 65536 } (by show s.m_ir < 16; omega)
      exact ⟨_, hc, rfl⟩
    · obtain ⟨c, hc⟩ := set_busy_flag_eq
        { s with m_dsa := ((d <<< 8) ||| (s.m_dsa &&& 0xff)) % 65536 }
        (by show s.m_ir < 16; omega)
      exact ⟨_, hc, rfl⟩
    · exact ⟨s, rfl, rfl⟩

/-- The auto-increment theorem applied to SET_BIT with the cursor at 0xffff: the
write is accepted and the cursor address wraps to 0. -/
theorem cursor_auto_increment_witness :
    set_bit_device.m_bf = false ∧
    ∃ s1, data_w set_bit_device 0x0b = some s1 ∧ s1.m_cac = (0xffff + 1) % 65536 :=
  ⟨rfl, (cursor_auto_increment set_bit_device 0x0b).2.1 rfl (Or.inr (Or.inl rfl))⟩

/-- C9 (unrecognised instruction). On a ready device whose instruction register
holds a code `data_w` has no case for (5, 6, 7, 13 or anything from 16 up),
`data_w` returns the device it was given, for every written value: no member
changes, the busy flag stays clear and the busy timer is not armed. -/
theorem data_w_unrecognised_noop (s : hd61830_device) (d : Nat)
    (hready : s.m_bf = false)
    (hir : s.m_ir = 5 ∨ s.m_ir = 6 ∨ s.m_ir = 7 ∨ s.m_ir = 13 ∨ 16 ≤ s.m_ir) :
    data_w s d = some s := by
  have h0 : s.m_ir ≠ 0 := by omega
  have h1 : s.m_ir ≠ 1 := by omega
  have h2 : s.m_ir ≠ 2 := by omega
  have h3 : s.m_ir ≠ 3 := by omega
  have h4 : s.m_ir ≠ 4 := by omega
  have h8 : s.m_ir ≠ 8 := by omega
  have h9 : s.m_ir ≠ 9 := by omega
  have h10 : s.m_ir ≠ 10 := by omega
  have h11 : s.m_ir ≠ 11 := by omega
  have h12 : s.m_ir ≠ 12 := by omega
  have h14 : s.m_ir ≠ 14 := by omega
  have h15 : s.m_ir ≠ 15 := by omega
  simp only [data_w, hready, Bool.false_eq_true, ↓reduceIte, h0, h1, h2, h3, h4, h8, h9, h10,
    h11, h12, h14, h15, INSTRUCTION_MODE_CONTROL, INSTRUCTION_CHARACTER_PITCH,
    INSTRUCTION_NUMBER_OF_CHARACTERS, INSTRUCTION_NUMBER_OF_TIME_DIVISIONS,
    INSTRUCTION_CURSOR_POSITION, INSTRUCTION_DISPLAY_START_LOW,
    INSTRUCTION_DISPLAY_START_HIGH, INSTRUCTION_CURSOR_ADDRESS_LOW,
    INSTRUCTION_CURSOR_ADDRESS_HIGH, INSTRUCTION_DISPLAY_DATA_WRITE, INSTRUCTION_CLEAR_BIT,
    INSTRUCTION_SET_BIT]

/-- The no-op theorem applied to a ready device whose instruction register holds
DISPLAY_DATA_READ (13). -/
theorem data_w_unrecognised_noop_witness :
    (illegal_device.m_bf = false ∧ illegal_device.m_ir = 13) ∧
    data_w illegal_device 0x41 = some illegal_device :=
  ⟨⟨rfl, rfl⟩,
    data_w_unrecognised_noop illegal_device 0x41 rfl (Or.inr (Or.inr (Or.inr (Or.inl rfl))))⟩

/-! ## The busy flag and its timer -/

theorem set_busy_flag_armed (s s1 : hd61830_device) (h : set_busy_flag s = some s1) :
    s1.m_bf = true ∧ ∃ us, s1.m_busy_timer = some us := by
  unfold set_busy_flag at h
  cases hc : CYCLES[s.m_ir]? with
  | none => simp [hc] at h
  | some c =>
    simp only [hc, Option.some.injEq] at h
    subst h
    exact ⟨rfl, _, rfl⟩

theorem ite_some_elim {α : Type} {P : Prop} (c : Prop) [Decidable c] {x y : Option α} {r : α}
    (h : (if c then x else y) = some r) (hx : x = some r → P) (hy : y = some r → P) : P := by
  by_cases hc : c
  · rw [if_pos hc] at h
    exact hx h
  · rw [if_neg hc] at h
    exact hy h

theorem data_w_unchanged_or_armed (s s1 : hd61830_device) (d : Nat)
    (h : data_w s d = some s1) :
    s1 = s ∨ (s1.m_bf = true ∧ ∃ us, s1.m_busy_timer = some us) := by
  have harmed : ∀ t : hd61830_device, set_busy_flag t = some s1 →
      s1 = s ∨ (s1.m_bf = true ∧ ∃ us, s1.m_busy_timer = some us) :=
    fun t ht => Or.inr (set_busy_flag_armed t s1 ht)
  have hsame : some s = some s1 →
      s1 = s ∨ (s1.m_bf = true ∧ ∃ us, s1.m_busy_timer = some us) :=
    fun hs => Or.inl (Option.some.inj hs).symm
  unfold data_w at h
  refine ite_some_elim _ h hsame fun h => ?_
  refine ite_some_elim _ h (harmed _) fun h => ?_
  refine ite_some_elim _ h (harmed _) fun h => ?_
  refine ite_some_elim _ h (harmed _) fun h => ?_
  refine ite_some_elim _ h (harmed _) fun h => ?_
  refine ite_some_elim _ h (harmed _) fun h => ?_
  refine ite_some_elim _ h (harmed _) fun h => ?_
  refine ite_some_elim _ h (harmed _) fun h => ?_
  refine ite_some_elim _ h (fun h => ite_some_elim _ h (harmed _) (harmed _)) fun h => ?_
  refine ite_some_elim _ h (harmed _) fun h => ?_
  refine ite_some_elim _ h (harmed _) fun h => ?_
  refine ite_some_elim _ h (harmed _) fun h => ?_
  exact ite_some_elim _ h (harmed _) hsame

theorem update_screen_keeps_busy (env : render_env) (s : hd61830_device)
    (r : hd61830_device × List draw_op) (h : update_screen env s = some r) :
    r.1.m_bf = s.m_bf ∧ r.1.m_busy_timer = s.m_busy_timer := by
  unfold update_screen at h
  simp only at h
  split at h
  · exact absurd h (by simp)
  · simp only [Option.some.injEq] at h
    subst h
    split_ifs <;> exact ⟨rfl, rfl⟩

theorem step_keeps_timer_pending (env : render_env) (s s1 : hd61830_device) (a : access)
    (hinv : s.m_bf = true → ∃ us, s.m_busy_timer = some us)
    (h : step env s a = some s1) :
    s1.m_bf = true → ∃ us, s1.m_busy_timer = some us := by
  cases a with
  | control_w data =>
    simp only [step, Option.some.injEq] at h
    subst h
    exact hinv
  | data_w data =>
    rcases data_w_unchanged_or_armed s s1 data h with h1 | h1
    · subst h1
      exact hinv
    · exact fun _ => h1.2
  | data_r =>
    simp only [step, Option.some.injEq] at h
    subst h
    exact hinv
  | status_r =>
    simp only [step, Option.some.injEq] at h
    subst h
    exact hinv
  | device_reset =>
    simp only [step, Option.some.injEq] at h
    subst h
    exact hinv
  | update_screen =>
    simp only [step] at h
    cases hu : update_screen env s with
    | none => simp [hu] at h
    | some r =>
      simp only [hu, Option.map_some', Option.some.injEq] at h
      subst h
      obtain ⟨hb, ht⟩ := update_screen_keeps_busy env s r hu
      rw [hb, ht]
      exact hinv
  | device_timer =>
    simp only [step, busy_timer_expiry] at h
    cases ht : s.m_busy_timer with
    | none => simp [ht] at h
    | some us =>
      simp only [ht, Option.some.injEq] at h
      subst h
      intro hb
      exact absurd hb (by simp [device_timer])

theorem run_keeps_timer_pending (env : render_env) (ops : List access) :
    ∀ s s1 : hd61830_device, (s.m_bf = true → ∃ us, s.m_busy_timer = some us) →
      run env s ops = some s1 → (s1.m_bf = true → ∃ us, s1.m_busy_timer = some us) := by
  induction ops with
  | nil =>
    intro s s1 hinv h
    simp only [run, Option.some.injEq] at h
    subst h
    exact hinv
  | cons a rest ih =>
    intro s s1 hinv h
    simp only [run] at h
    cases hs : step env s a with
    | none => simp [hs] at h
    | some s2 =>
      simp only [hs] at h
      exact ih s2 s1 (step_keeps_timer_pending env s s2 a hinv hs) h

/-- C10 (busy invariant). In every device reached from a ready device by any
sequence of `control_w`, `data_w`, `data_r`, `status_r`, `device_reset`,
`update_screen` and busy-timer expiries, a set busy flag comes with a pending
busy timer, and the expiry of that timer yields a device whose busy flag is
clear. -/
theorem busy_implies_timer_pending (env : render_env) (s0 s : hd61830_device)
    (ops : List access) (h0 : s0.m_bf = false) (hrun : run env s0 ops = some s)
    (hbusy : s.m_bf = true) :
    (∃ us, s.m_busy_timer = some us) ∧
    ∃ s1, busy_timer_expiry s = some s1 ∧ s1.m_bf = false := by
  have hpending : ∃ us, s.m_busy_timer = some us :=
    run_keeps_timer_pending env ops s0 s (fun hb => absurd hb (by simp [h0])) hrun hbusy
  refine ⟨hpending, ?_⟩
  obtain ⟨us, hus⟩ := hpending
  exact ⟨device_timer { s with m_busy_timer := none },
    by simp only [busy_timer_expiry, hus], rfl⟩

/-- The busy invariant applied to `ready_device` after a display data write of
0x41, a data read, a status read, a reset and one frame: the device is still
busy and its timer is pending. -/
theorem busy_implies_timer_pending_witness :
    (ready_device.m_bf = false ∧
      run sample_env ready_device
        [access.control_w 12, access.data_w 0x41, access.data_r, access.status_r,
          access.device_reset, access.update_screen] = some after_write_device ∧
      after_write_device.m_bf = true) ∧
    ((∃ us, after_write_device.m_busy_timer = some us) ∧
      ∃ s1, busy_timer_expiry after_write_device = some s1 ∧ s1.m_bf = false) :=
  ⟨⟨rfl, rfl, rfl⟩,
    busy_implies_timer_pending sample_env ready_device after_write_device
      [access.control_w 12, access.data_w 0x41, access.data_r, access.status_r,
        access.device_reset, access.update_screen] rfl rfl rfl⟩

/-! ## Busy arming -/

theorem busy_write_returns_same (s : hd61830_device) (data : Nat) (hbusy : s.m_bf = true) :
    data_w s data = some s := by
  simp [data_w, hbusy]

theorem default_case_returns_same (s : hd61830_device) (d : Nat) (hready : s.m_bf = false)
    (hir : s.m_ir = 5 ∨ s.m_ir = 6 ∨ s.m_ir = 7 ∨ s.m_ir = 13 ∨ 16 ≤ s.m_ir) :
    data_w s d = some s := by
  have h0 : s.m_ir ≠ 0 := by omega
  have h1 : s.m_ir ≠ 1 := by omega
  have h2 : s.m_ir ≠ 2 := by omega
  have h3 : s.m_ir ≠ 3 := by omega
  have h4 : s.m_ir ≠ 4 := by omega
  have h8 : s.m_ir ≠ 8 := by omega
  have h9 : s.m_ir ≠ 9 := by omega
  have h10 : s.m_ir ≠ 10 := by omega
  have h11 : s.m_ir ≠ 11 := by omega
  have h12 : s.m_ir ≠ 12 := by omega
  have h14 : s.m_ir ≠ 14 := by omega
  have h15 : s.m_ir ≠ 15 := by omega
  simp only [data_w, hready, Bool.false_eq_true, ↓reduceIte, h0, h1, h2, h3, h4, h8, h9, h10,
    h11, h12, h14, h15, INSTRUCTION_MODE_CONTROL, INSTRUCTION_CHARACTER_PITCH,
    INSTRUCTION_NUMBER_OF_CHARACTERS, INSTRUCTION_NUMBER_OF_TIME_DIVISIONS,
    INSTRUCTION_CURSOR_POSITION, INSTRUCTION_DISPLAY_START_LOW,
    INSTRUCTION_DISPLAY_START_HIGH, INSTRUCTION_CURSOR_ADDRESS_LOW,
    INSTRUCTION_CURSOR_ADDRESS_HIGH, INSTRUCTION_DISPLAY_DATA_WRITE, INSTRUCTION_CLEAR_BIT,
    INSTRUCTION_SET_BIT]

theorem data_w_handled (s : hd61830_device) (d k : Nat) (hready : s.m_bf = false)
    (hk : s.m_ir = k) (hmem : k ∈ [0, 1, 2, 3, 4, 8, 9, 10, 11, 12, 14, 15]) :
    ∃ t, data_w s d = set_busy_flag t ∧ t.m_ir = k ∧ (k = 0 → t.m_mcr = d) := by
  simp only [List.mem_cons, List.mem_singleton, List.not_mem_nil, or_false] at hmem
  rcases hmem with rfl | rfl | rfl | rfl | rfl | rfl | rfl | rfl | rfl | rfl | rfl | rfl
  all_goals
    simp +decide only [data_w, hready, hk, ↓reduceIte, if_false, if_true,
      INSTRUCTION_MODE_CONTROL, INSTRUCTION_CHARACTER_PITCH,
      INSTRUCTION_NUMBER_OF_CHARACTERS, INSTRUCTION_NUMBER_OF_TIME_DIVISIONS,
      INSTRUCTION_CURSOR_POSITION, INSTRUCTION_DISPLAY_START_LOW,
      INSTRUCTION_DISPLAY_START_HIGH, INSTRUCTION_CURSOR_ADDRESS_LOW,
      INSTRUCTION_CURSOR_ADDRESS_HIGH, INSTRUCTION_DISPLAY_DATA_WRITE,
      INSTRUCTION_CLEAR_BIT, INSTRUCTION_SET_BIT, writebyte, readbyte]
  all_goals first
    | exact ⟨_, rfl, rfl, fun _ => rfl⟩
    | exact ⟨_, rfl, rfl, fun h => absurd h (by decide)⟩
    | (split_ifs <;> exact ⟨_, rfl, rfl, fun h => absurd h (by decide)⟩)

theorem cycles_handled (k : Nat) (hmem : k ∈ [0, 1, 2, 3, 4, 8, 9, 10, 11, 12, 14, 15]) :
    ∃ c, CYCLES[k]? = some c ∧
      c = (if k = 12 then 6 else if k = 14 ∨ k = 15 then 36 else 4) ∧ c ≠ -1 := by
  simp only [List.mem_cons, List.mem_singleton, List.not_mem_nil, or_false] at hmem
  rcases hmem with rfl | rfl | rfl | rfl | rfl | rfl | rfl | rfl | rfl | rfl | rfl | rfl
  all_goals exact ⟨_, rfl, by decide, by decide⟩

/-- C11 (busy arming). `data_w` always has a result, so `set_busy_flag` never
indexes outside the 16-entry table `CYCLES`. On a ready device whose
instruction register holds a handled code (0 to 4, 8 to 12, 14 or 15) the
write ends with the busy flag set and the busy timer armed for
`CYCLES[m_ir]` microseconds: 6 for DISPLAY_DATA_WRITE, 36 for CLEAR_BIT and
SET_BIT, 4 for the other handled codes, never the entry -1; MODE_CONTROL
stores the written value in `m_mcr` and arms the timer like the others. In
every other case, a busy device or an instruction register outside the handled
codes (among them 5, 6 and 7, whose entries are -1, and everything from 16
on), the write returns the device as it was: `set_busy_flag` is not reached,
the busy flag is not set and the timer is not armed. Hence whatever `data_w`
returns is either the device it was given or a device on which the timer has
just been armed with an entry of the table, at an index below 16, that is 4, 6
or 36. -/
theorem data_w_arms_busy_timer (s : hd61830_device) (d : Nat) :
    (∃ s1, data_w s d = some s1) ∧
    (s.m_bf = false → s.m_ir ∈ [0, 1, 2, 3, 4, 8, 9, 10, 11, 12, 14, 15] →
      ∃ s1 c, data_w s d = some s1 ∧ s1.m_bf = true ∧ s1.m_busy_timer = some c ∧
        CYCLES[s.m_ir]? = some c ∧
        c = (if s.m_ir = 12 then 6 else if s.m_ir = 14 ∨ s.m_ir = 15 then 36 else 4) ∧
        c ≠ -1 ∧
        (s.m_ir = INSTRUCTION_MODE_CONTROL → s1.m_mcr = d)) ∧
    ((s.m_bf = true ∨ s.m_ir ∉ [0, 1, 2, 3, 4, 8, 9, 10, 11, 12, 14, 15]) →
      data_w s d = some s) ∧
    (∀ s1, data_w s d = some s1 →
      s1 = s ∨
      (s.m_bf = false ∧ s.m_ir < 16 ∧ s1.m_bf = true ∧
        ∃ c, s1.m_busy_timer = some c ∧ CYCLES[s.m_ir]? = some c ∧ c ≠ -1 ∧
          (c = 4 ∨ c = 6 ∨ c = 36))) := by
  have harm : s.m_bf = false → s.m_ir ∈ [0, 1, 2, 3, 4, 8, 9, 10, 11, 12, 14, 15] →
      ∃ s1 c, data_w s d = some s1 ∧ s1.m_bf = true ∧ s1.m_busy_timer = some c ∧
        CYCLES[s.m_ir]? = some c ∧
        c = (if s.m_ir = 12 then 6 else if s.m_ir = 14 ∨ s.m_ir = 15 then 36 else 4) ∧
        c ≠ -1 ∧
        (s.m_ir = INSTRUCTION_MODE_CONTROL → s1.m_mcr = d) := by
    intro hready hmem
    obtain ⟨t, ht, htir, htm⟩ := data_w_handled s d s.m_ir hready rfl hmem
    obtain ⟨c, hc, hval, hne⟩ := cycles_handled s.m_ir hmem
    refine ⟨{ t with m_bf := true, m_busy_timer := some c }, c, ?_, rfl, rfl, hc, hval, hne,
      htm⟩
    rw [ht]
    simp only [set_busy_flag, htir, hc, timer_adjust_oneshot, ATTOTIME_IN_USEC]
  have hsame : (s.m_bf = true ∨ s.m_ir ∉ [0, 1, 2, 3, 4, 8, 9, 10, 11, 12, 14, 15]) →
      data_w s d = some s := by
    intro hcase
    by_cases hb : s.m_bf = true
    · exact busy_write_returns_same s d hb
    · have hready : s.m_bf = false := by simpa using hb
      have hmem : s.m_ir ∉ [0, 1, 2, 3, 4, 8, 9, 10, 11, 12, 14, 15] :=
        hcase.resolve_left hb
      refine default_case_returns_same s d hready ?_
      simp only [List.mem_cons, List.mem_singleton, List.not_mem_nil, or_false, not_or] at hmem
      omega
  refine ⟨?_, harm, hsame, ?_⟩
  · by_cases hcase : s.m_bf = true ∨ s.m_ir ∉ [0, 1, 2, 3, 4, 8, 9, 10, 11, 12, 14, 15]
    · exact ⟨s, hsame hcase⟩
    · rw [not_or, not_not] at hcase
      obtain ⟨s1, _, h1, _⟩ := harm (by simpa using hcase.1) hcase.2
      exact ⟨s1, h1⟩
  · intro s1 hs1
    by_cases hcase : s.m_bf = true ∨ s.m_ir ∉ [0, 1, 2, 3, 4, 8, 9, 10, 11, 12, 14, 15]
    · rw [hsame hcase] at hs1
      exact Or.inl (Option.some.inj hs1).symm
    · rw [not_or, not_not] at hcase
      have hready : s.m_bf = false := by simpa using hcase.1
      obtain ⟨s2, c, h2, hbf, htimer, hc, hval, hne, _⟩ := harm hready hcase.2
      rw [h2] at hs1
      obtain rfl := Option.some.inj hs1
      have hlt : s.m_ir < 16 := by
        have hmem := hcase.2
        simp only [List.mem_cons, List.mem_singleton, List.not_mem_nil, or_false] at hmem
        omega
      refine Or.inr ⟨hready, hlt, hbf, c, htimer, hc, hne, ?_⟩
      rw [hval]
      split_ifs <;> simp

/-- The busy-arming theorem applied to a ready device whose instruction register
holds SET_BIT: the timer is armed for 36 microseconds; to a ready device whose
instruction register holds 5, where the entry of the table is -1: the device
comes back as it was, with no timer armed; and to a busy device. -/
theorem data_w_arms_busy_timer_witness :
    ((set_bit_device.m_bf = false ∧
        set_bit_device.m_ir ∈ [0, 1, 2, 3, 4, 8, 9, 10, 11, 12, 14, 15]) ∧
      ∃ s1 c, data_w set_bit_device 0x0b = some s1 ∧ s1.m_bf = true ∧
        s1.m_busy_timer = some c ∧ CYCLES[set_bit_device.m_ir]? = some c ∧
        c = (if set_bit_device.m_ir = 12 then 6
          else if set_bit_device.m_ir = 14 ∨ set_bit_device.m_ir = 15 then 36 else 4) ∧
        c ≠ -1 ∧
        (set_bit_device.m_ir = INSTRUCTION_MODE_CONTROL → s1.m_mcr = 0x0b)) ∧
    ((reserved_device.m_bf = false ∧ CYCLES[reserved_device.m_ir]? = some (-1) ∧
        reserved_device.m_busy_timer = none) ∧
      data_w reserved_device 0x41 = some reserved_device) ∧
    (busy_device.m_bf = true ∧ data_w busy_device 0x41 = some busy_device) :=
  ⟨⟨⟨rfl, by decide⟩, (data_w_arms_busy_timer set_bit_device 0x0b).2.1 rfl (by decide)⟩,
    ⟨⟨rfl, by decide, rfl⟩,
      (data_w_arms_busy_timer reserved_device 0x41).2.2.1 (Or.inr (by decide))⟩,
    ⟨rfl, (data_w_arms_busy_timer busy_device 0x41).2.2.1 (Or.inl rfl)⟩⟩

end HD61830

namespace C64CPM

/-! ## HALT line arbitration -/

theorem update_signals_ok (m : cpm_machine)
    (h : m.cart.m_enabled = 0 ∨ m.cart.m_enabled = 1) : halt_lines_ok (update_signals m) := by
  rcases h with h | h
  · left
    simp [update_signals, h]
  · right
    by_cases hr : m.cart.m_reset = 0
    · simp [update_signals, h, hr]
    · simp [update_signals, h, hr, z80_reset]

theorem device_reset_ok (m : cpm_machine) : halt_lines_ok (device_reset m) :=
  update_signals_ok _ (Or.inl rfl)

theorem step_ok (m : cpm_machine) (c : call) (h : halt_lines_ok m) :
    halt_lines_ok (step m c) := by
  cases c with
  | c64_cd_w data io1 =>
    simp only [step, c64_cd_w]
    split_ifs with hio hbit
    · exact update_signals_ok _ (Or.inl rfl)
    · exact update_signals_ok _ (Or.inr rfl)
    · exact h
  | c64_game_r ba =>
    simp only [step, c64_game_r]
    split_ifs with hba
    · refine update_signals_ok _ ?_
      rcases h with h | h
      · exact Or.inl h.1
      · exact Or.inr h.1
    · exact h
  | device_reset => exact device_reset_ok m

theorem trace_ok (calls : List call) :
    ∀ m : cpm_machine, halt_lines_ok m → ∀ m1 ∈ trace m calls, halt_lines_ok m1 := by
  induction calls with
  | nil =>
    intro m _ m1 hm1
    simp [trace] at hm1
  | cons c rest ih =>
    intro m h m1 hm1
    simp only [trace, List.mem_cons] at hm1
    rcases hm1 with rfl | hm1
    · exact step_ok m c h
    · exact ih (step m c) (step_ok m c h) m1 hm1

/-- C12 (arbiter mutual exclusion). After `device_reset`, and after each call
of any sequence of `c64_cd_w` (any data, any `io1`), `c64_game_r` (any `ba`)
and `device_reset`, exactly one of the two HALT lines is asserted: the HALT
line of the Z80 is asserted if and only if `m_enabled` is 0, and the HALT line
of the host CPU is asserted if and only if `m_enabled` is 1. -/
theorem halt_lines_exclusive (m : cpm_machine) (calls : List call) :
    ∀ m1 ∈ device_reset m :: trace (device_reset m) calls,
      (m1.z80_halt = ASSERT_LINE ↔ m1.cart.m_enabled = 0) ∧
      (m1.host_halt = ASSERT_LINE ↔ m1.cart.m_enabled = 1) ∧
      ((m1.z80_halt = ASSERT_LINE ∧ m1.host_halt = CLEAR_LINE) ∨
        (m1.z80_halt = CLEAR_LINE ∧ m1.host_halt = ASSERT_LINE)) := by
  intro m1 hm1
  have hok : halt_lines_ok m1 := by
    rcases List.mem_cons.1 hm1 with rfl | h
    · exact device_reset_ok m
    · exact trace_ok calls _ (device_reset_ok m) m1 h
  rcases hok with ⟨he, hz, hh⟩ | ⟨he, hz, hh⟩
  · simp [he, hz, hh, ASSERT_LINE, CLEAR_LINE]
  · simp [he, hz, hh, ASSERT_LINE, CLEAR_LINE]

/-- The mutual-exclusion theorem applied to a power-on machine and the calls
enable, BA low, disable, reset: the machine after the enabling write has the
host halted and the Z80 running. -/
theorem halt_lines_exclusive_witness :
    (c64_cd_w (device_reset power_on) 0 0 ∈
      device_reset power_on :: trace (device_reset power_on)
        [call.c64_cd_w 0 0, call.c64_game_r 0, call.c64_cd_w 1 0, call.device_reset]) ∧
    ((c64_cd_w (device_reset power_on) 0 0).z80_halt = ASSERT_LINE ↔
      (c64_cd_w (device_reset power_on) 0 0).cart.m_enabled = 0) ∧
    ((c64_cd_w (device_reset power_on) 0 0).host_halt = ASSERT_LINE ↔
      (c64_cd_w (device_reset power_on) 0 0).cart.m_enabled = 1) ∧
    (((c64_cd_w (device_reset power_on) 0 0).z80_halt = ASSERT_LINE ∧
        (c64_cd_w (device_reset power_on) 0 0).host_halt = CLEAR_LINE) ∨
      ((c64_cd_w (device_reset power_on) 0 0).z80_halt = CLEAR_LINE ∧
        (c64_cd_w (device_reset power_on) 0 0).host_halt = ASSERT_LINE)) :=
  ⟨by decide,
    halt_lines_exclusive power_on
      [call.c64_cd_w 0 0, call.c64_game_r 0, call.c64_cd_w 1 0, call.device_reset]
      (c64_cd_w (device_reset power_on) 0 0) (by decide)⟩

/-! ## Reset on enable -/

theorem BIT_zero_eq (data : Nat) : BIT data 0 = data % 2 := by
  simp [BIT, Nat.and_one_is_mod]

theorem step_held (r : Nat) (m : cpm_machine) (c : call) (hc : keeps_disabled c = true)
    (h : held_for_reset r m) : held_for_reset r (step m c) := by
  obtain ⟨he, hr, hz, hh, hn⟩ := h
  cases c with
  | c64_cd_w data io1 =>
    simp only [keeps_disabled, Bool.or_eq_true, decide_eq_true_eq] at hc
    simp only [step, c64_cd_w]
    by_cases hio : io1 = 0
    · have hbit : BIT data 0 ≠ 0 := by
        rcases hc with hc | hc
        · exact absurd hio hc
        · exact hc
      simp [held_for_reset, hio, hbit, update_signals, hr, hn]
    · simp [held_for_reset, hio, he, hr, hz, hh, hn]
  | c64_game_r ba =>
    simp only [step, c64_game_r]
    by_cases hba : m.cart.m_ba = ba
    · simp [held_for_reset, hba, he, hr, hz, hh, hn]
    · simp [held_for_reset, hba, update_signals, he, hr, hn]
  | device_reset => simp [keeps_disabled] at hc

theorem run_held (r : Nat) (calls : List call) :
    ∀ m : cpm_machine, (∀ c ∈ calls, keeps_disabled c = true) → held_for_reset r m →
      held_for_reset r (run m calls) := by
  induction calls with
  | nil =>
    intro m _ h
    exact h
  | cons c rest ih =>
    intro m hq h
    have hstep := step_held r m c (hq c (List.mem_cons_self c rest)) h
    exact ih (step m c) (fun c1 hc1 => hq c1 (List.mem_cons_of_mem c hc1)) hstep

/-- C13 (reset on enable). `device_reset` leaves `m_enabled` 0 and `m_reset` 1
with the Z80 halted and the host running. Whatever calls that do not enable the
Z80 follow, the next enabling write (`c64_cd_w` with `io1` 0 and bit 0 of the
data clear) resets the Z80 once and leaves its program counter at 0, `m_reset`
at 0, the HALT line of the Z80 clear and the HALT line of the host asserted. -/
theorem reset_then_enable (m : cpm_machine) (calls : List call) (data : Nat)
    (hquiet : ∀ c ∈ calls, keeps_disabled c = true) (hbit : data % 2 = 0) :
    ((device_reset m).cart.m_enabled = 0 ∧ (device_reset m).cart.m_reset = 1 ∧
      (device_reset m).z80_halt = ASSERT_LINE ∧ (device_reset m).host_halt = CLEAR_LINE) ∧
    ((c64_cd_w (run (device_reset m) calls) data 0).z80_resets = m.z80_resets + 1 ∧
      (c64_cd_w (run (device_reset m) calls) data 0).z80_pc = 0 ∧
      (c64_cd_w (run (device_reset m) calls) data 0).cart.m_reset = 0 ∧
      (c64_cd_w (run (device_reset m) calls) data 0).cart.m_enabled = 1 ∧
      (c64_cd_w (run (device_reset m) calls) data 0).z80_halt = CLEAR_LINE ∧
      (c64_cd_w (run (device_reset m) calls) data 0).host_halt = ASSERT_LINE) := by
  have h0 : held_for_reset m.z80_resets (device_reset m) := by
    simp [held_for_reset, device_reset, update_signals]
  refine ⟨⟨h0.1, h0.2.1, h0.2.2.1, h0.2.2.2.1⟩, ?_⟩
  obtain ⟨_, hr, _, _, hn⟩ := run_held m.z80_resets calls (device_reset m) hquiet h0
  have hb : BIT data 0 = 0 := by rw [BIT_zero_eq]; exact hbit
  simp [c64_cd_w, hb, update_signals, hr, hn, z80_reset]

/-- The reset-on-enable theorem applied to a power-on machine whose Z80 program
counter is 0x1234, with a BA change and a disabling write between the reset and
the enabling write of 0xfe. -/
theorem reset_then_enable_witness :
    ((∀ c ∈ [call.c64_game_r 0, call.c64_cd_w 1 0], keeps_disabled c = true) ∧
      0xfe % 2 = 0 ∧ power_on.z80_pc = 0x1234) ∧
    (c64_cd_w (run (device_reset power_on) [call.c64_game_r 0, call.c64_cd_w 1 0])
      0xfe 0).z80_pc = 0 ∧
    (c64_cd_w (run (device_reset power_on) [call.c64_game_r 0, call.c64_cd_w 1 0])
      0xfe 0).cart.m_reset = 0 :=
  ⟨⟨by decide, by decide, rfl⟩,
    (reset_then_enable power_on [call.c64_game_r 0, call.c64_cd_w 1 0] 0xfe
      (by decide) (by decide)).2.2.1,
    (reset_then_enable power_on [call.c64_game_r 0, call.c64_cd_w 1 0] 0xfe
      (by decide) (by decide)).2.2.2.1⟩

/-! ## The idle bus value -/

/-- C14 (idle bus value). While `m_enabled` is 0, `dma_r` returns 0xff for every
offset and makes no access to the host bus, and `dma_w` makes no access to the
host bus and returns the machine unchanged. -/
theorem dma_idle (slot_read : Nat → Nat) (m : cpm_machine) (offset data : Nat)
    (hoff : m.cart.m_enabled = 0) :
    dma_r slot_read m offset = (0xff, []) ∧ dma_w m offset data = (m, []) := by
  simp [dma_r, dma_w, hoff]

/-- The idle-bus theorem applied to a machine just after `device_reset`, with a
host bus that would return 0x42. -/
theorem dma_idle_witness :
    (device_reset power_on).cart.m_enabled = 0 ∧
    dma_r (fun _ => 0x42) (device_reset power_on) 0x100 = (0xff, []) ∧
    dma_w (device_reset power_on) 0x100 0x55 = (device_reset power_on, []) :=
  ⟨rfl, dma_idle (fun _ => 0x42) (device_reset power_on) 0x100 0x55 rfl⟩

end C64CPM

namespace HD61830

/-! ## Rendering and the register state -/

/-- C15 (rendering frame). `update_screen` has a result whenever the display is
off, or graphic mode is selected, or the vertical pitch `m_vp` is not 0 (the
row count of text mode divides by it). Whenever it has a result, `m_bf`,
`m_ir`, `m_mcr`, `m_dor`, `m_cac`, `m_dsa`, `m_vp`, `m_hp`, `m_hn`, `m_nx`,
`m_cp`, video RAM and the busy timer are as before; only the blink counter
`m_blink` and the blink phase `m_cursor` may differ. -/
theorem update_screen_frame (env : render_env) (s : hd61830_device) :
    ((s.m_mcr &&& MODE_DISPLAY_ON = 0 ∨ s.m_mcr &&& MODE_GRAPHIC ≠ 0 ∨ s.m_vp ≠ 0) →
      ∃ r, update_screen env s = some r) ∧
    (∀ r, update_screen env s = some r →
      r.1.m_bf = s.m_bf ∧ r.1.m_ir = s.m_ir ∧ r.1.m_mcr = s.m_mcr ∧ r.1.m_dor = s.m_dor ∧
      r.1.m_cac = s.m_cac ∧ r.1.m_dsa = s.m_dsa ∧ r.1.m_vp = s.m_vp ∧ r.1.m_hp = s.m_hp ∧
      r.1.m_hn = s.m_hn ∧ r.1.m_nx = s.m_nx ∧ r.1.m_cp = s.m_cp ∧ r.1.vram = s.vram ∧
      r.1.m_busy_timer = s.m_busy_timer ∧
      r.1 = { s with m_blink := r.1.m_blink, m_cursor := r.1.m_cursor }) := by
  constructor
  · intro hdef
    by_cases hon : s.m_mcr &&& MODE_DISPLAY_ON = 0
    · simp [update_screen, hon]
    · by_cases hg : s.m_mcr &&& MODE_GRAPHIC = 0
      · have hvp : s.m_vp ≠ 0 := by
          rcases hdef with h | h | h
          · exact absurd h hon
          · exact absurd hg h
          · exact h
        simp [update_screen, hon, hg, update_text, hvp]
      · simp [update_screen, hon, hg]
  · intro r h
    unfold update_screen at h
    simp only at h
    split at h
    · exact absurd h (by simp)
    · simp only [Option.some.injEq] at h
      subst h
      split_ifs <;> exact ⟨rfl, rfl, rfl, rfl, rfl, rfl, rfl, rfl, rfl, rfl, rfl, rfl, rfl, rfl⟩

/-- The frame theorem applied to a small text-mode device with the display on:
the frame is drawn and the registers are as before. -/
theorem update_screen_frame_witness :
    small_text_device.m_vp ≠ 0 ∧
    ∃ r, update_screen ones_env small_text_device = some r ∧
      r.1.m_bf = small_text_device.m_bf ∧ r.1.m_cac = small_text_device.m_cac ∧
      r.1.vram = small_text_device.vram := by
  refine ⟨by decide, ?_⟩
  obtain ⟨r, hr⟩ :=
    (update_screen_frame ones_env small_text_device).1 (Or.inr (Or.inr (by decide)))
  have h := (update_screen_frame ones_env small_text_device).2 r hr
  exact ⟨r, hr, h.1, h.2.2.2.2.1, h.2.2.2.2.2.2.2.2.2.2.2.1⟩

/-! ## Blink cadence -/

theorem set_busy_flag_keeps_blink (t s1 : hd61830_device) (h : set_busy_flag t = some s1) :
    s1.m_blink = t.m_blink ∧ s1.m_cursor = t.m_cursor := by
  unfold set_busy_flag at h
  cases hc : CYCLES[t.m_ir]? with
  | none => simp [hc] at h
  | some c =>
    simp only [hc, Option.some.injEq] at h
    subst h
    exact ⟨rfl, rfl⟩

theorem data_w_keeps_blink (s s1 : hd61830_device) (d : Nat) (h : data_w s d = some s1) :
    s1.m_blink = s.m_blink ∧ s1.m_cursor = s.m_cursor := by
  have hsame : some s = some s1 → s1.m_blink = s.m_blink ∧ s1.m_cursor = s.m_cursor := by
    intro hs
    have e : s = s1 := Option.some.inj hs
    subst e
    exact ⟨rfl, rfl⟩
  have hset : ∀ t : hd61830_device, set_busy_flag t = some s1 → t.m_blink = s.m_blink →
      t.m_cursor = s.m_cursor → s1.m_blink = s.m_blink ∧ s1.m_cursor = s.m_cursor := by
    intro t ht hb hc
    obtain ⟨h1, h2⟩ := set_busy_flag_keeps_blink t s1 ht
    exact ⟨h1.trans hb, h2.trans hc⟩
  unfold data_w at h
  refine ite_some_elim _ h hsame fun h => ?_
  refine ite_some_elim _ h (fun ht => hset _ ht rfl rfl) fun h => ?_
  refine ite_some_elim _ h (fun ht => hset _ ht rfl rfl) fun h => ?_
  refine ite_some_elim _ h (fun ht => hset _ ht rfl rfl) fun h => ?_
  refine ite_some_elim _ h (fun ht => hset _ ht rfl rfl) fun h => ?_
  refine ite_some_elim _ h (fun ht => hset _ ht rfl rfl) fun h => ?_
  refine ite_some_elim _ h (fun ht => hset _ ht rfl rfl) fun h => ?_
  refine ite_some_elim _ h (fun ht => hset _ ht rfl rfl) fun h => ?_
  refine ite_some_elim _ h
    (fun h => ite_some_elim _ h (fun ht => hset _ ht rfl rfl)
      (fun ht => hset _ ht rfl rfl)) fun h => ?_
  refine ite_some_elim _ h (fun ht => hset _ ht rfl rfl) fun h => ?_
  refine ite_some_elim _ h (fun ht => hset _ ht rfl rfl) fun h => ?_
  refine ite_some_elim _ h (fun ht => hset _ ht rfl rfl) fun h => ?_
  exact ite_some_elim _ h (fun ht => hset _ ht rfl rfl) hsame

theorem step_keeps_blink (env : render_env) (s s1 : hd61830_device) (a : access)
    (ha : a ≠ access.update_screen) (h : step env s a = some s1) :
    s1.m_blink = s.m_blink ∧ s1.m_cursor = s.m_cursor := by
  cases a with
  | control_w data =>
    simp only [step, Option.some.injEq] at h
    subst h
    exact ⟨rfl, rfl⟩
  | data_w data => exact data_w_keeps_blink s s1 data h
  | data_r =>
    simp only [step, Option.some.injEq] at h
    subst h
    exact ⟨rfl, rfl⟩
  | status_r =>
    simp only [step, Option.some.injEq] at h
    subst h
    exact ⟨rfl, rfl⟩
  | device_reset =>
    simp only [step, Option.some.injEq] at h
    subst h
    exact ⟨rfl, rfl⟩
  | update_screen => exact absurd rfl ha
  | device_timer =>
    simp only [step, busy_timer_expiry] at h
    cases ht : s.m_busy_timer with
    | none => simp [ht] at h
    | some us =>
      simp only [ht, Option.some.injEq] at h
      subst h
      exact ⟨rfl, rfl⟩

theorem update_screen_blink (env : render_env) (s : hd61830_device)
    (r : hd61830_device × List draw_op) (h : update_screen env s = some r) :
    r.1.m_blink = (if s.m_blink + 1 = 0x20 then 0 else s.m_blink + 1) ∧
    r.1.m_cursor = (if s.m_blink + 1 = 0x20 then !s.m_cursor else s.m_cursor) := by
  unfold update_screen at h
  simp only at h
  split at h
  · exact absurd h (by simp)
  · simp only [Option.some.injEq] at h
    subst h
    split_ifs <;> exact ⟨rfl, rfl⟩

theorem step_blink (env : render_env) (c0 : Bool) (s s1 : hd61830_device) (a : access) (k : Nat)
    (hb : s.m_blink = ((k % 32 : Nat) : Int)) (hc : s.m_cursor = (fun b => !b)^[k / 32] c0)
    (h : step env s a = some s1) :
    s1.m_blink = (((k + frames [a]) % 32 : Nat) : Int) ∧
    s1.m_cursor = (fun b => !b)^[(k + frames [a]) / 32] c0 := by
  by_cases ha : a = access.update_screen
  · subst ha
    have hf : frames [access.update_screen] = 1 := by decide
    rw [hf]
    simp only [step] at h
    cases hu : update_screen env s with
    | none => simp [hu] at h
    | some r =>
      simp only [hu, Option.map_some', Option.some.injEq] at h
      subst h
      obtain ⟨h1, h2⟩ := update_screen_blink env s r hu
      rw [h1, h2, hb, hc]
      by_cases hk : k % 32 = 31
      · have e1 : (k + 1) % 32 = 0 := by omega
        have e2 : (k + 1) / 32 = k / 32 + 1 := by omega
        have e3 : (((k % 32 : Nat) : Int) + 1 = 0x20) := by omega
        rw [if_pos e3, if_pos e3, e1, e2, Function.iterate_succ_apply']
        exact ⟨rfl, rfl⟩
      · have e1 : (k + 1) % 32 = k % 32 + 1 := by omega
        have e2 : (k + 1) / 32 = k / 32 := by omega
        have e3 : ¬ (((k % 32 : Nat) : Int) + 1 = 0x20) := by omega
        rw [if_neg e3, if_neg e3, e1, e2]
        exact ⟨by push_cast; rfl, rfl⟩
  · have hf : frames [a] = 0 := by
      simp only [frames, List.count_cons, List.count_nil, Nat.zero_add]
      rw [if_neg]
      simpa using ha
    obtain ⟨h1, h2⟩ := step_keeps_blink env s s1 a ha h
    rw [hf, Nat.add_zero, h1, h2]
    exact ⟨hb, hc⟩

theorem frames_cons (a : access) (rest : List access) :
    frames (a :: rest) = frames [a] + frames rest := by
  simp only [frames, List.count_cons, List.count_nil]
  omega

theorem run_blink (env : render_env) (c0 : Bool) (ops : List access) :
    ∀ (s s1 : hd61830_device) (k : Nat), s.m_blink = ((k % 32 : Nat) : Int) →
      s.m_cursor = (fun b => !b)^[k / 32] c0 → run env s ops = some s1 →
      s1.m_blink = (((k + frames ops) % 32 : Nat) : Int) ∧
      s1.m_cursor = (fun b => !b)^[(k + frames ops) / 32] c0 := by
  induction ops with
  | nil =>
    intro s s1 k hb hc h
    simp only [run, Option.some.injEq] at h
    subst h
    exact ⟨by simpa [frames] using hb, by simpa [frames] using hc⟩
  | cons a rest ih =>
    intro s s1 k hb hc h
    simp only [run] at h
    cases hs : step env s a with
    | none => simp [hs] at h
    | some s2 =>
      simp only [hs] at h
      obtain ⟨hb2, hc2⟩ := step_blink env c0 s s2 a k hb hc hs
      have := ih s2 s1 (k + frames [a]) hb2 hc2 h
      rw [frames_cons, ← Nat.add_assoc]
      exact this

/-- C16 (blink cadence). Starting from a device whose blink counter `m_blink`
is 0, after any sequence of accesses that contains `n` calls of
`update_screen`, `m_blink` equals `n` modulo 32 (so it lies in 0..31) and the
blink phase `m_cursor` has been inverted `n / 32` times. No access other than
`update_screen` (in particular no `control_w`, `data_w`, `data_r` or
`status_r`) changes `m_blink` or `m_cursor`. -/
theorem blink_cadence (env : render_env) (s0 s : hd61830_device) (ops : List access)
    (h0 : s0.m_blink = 0) (hrun : run env s0 ops = some s) :
    s.m_blink = ((frames ops % 32 : Nat) : Int) ∧
    (0 ≤ s.m_blink ∧ s.m_blink < 32) ∧
    s.m_cursor = (fun b => !b)^[frames ops / 32] s0.m_cursor ∧
    (∀ (t t1 : hd61830_device) (a : access), a ≠ access.update_screen →
      step env t a = some t1 → t1.m_blink = t.m_blink ∧ t1.m_cursor = t.m_cursor) := by
  have h := run_blink env s0.m_cursor ops s0 s 0 (by simpa using h0) rfl hrun
  rw [Nat.zero_add] at h
  refine ⟨h.1, ?_, h.2, fun t t1 a ha hs => step_keeps_blink env t t1 a ha hs⟩
  rw [h.1]
  omega

/-- The blink-cadence theorem applied to `ready_device` and 32 frames with the
display off: the blink counter is back at 0 and the blink phase has been
inverted once. -/
theorem blink_cadence_witness :
    (ready_device.m_blink = 0 ∧
      run sample_env ready_device (List.replicate 32 access.update_screen) =
        some after_32_frames) ∧
    after_32_frames.m_blink =
      ((frames (List.replicate 32 access.update_screen) % 32 : Nat) : Int) ∧
    after_32_frames.m_cursor =
      (fun b => !b)^[frames (List.replicate 32 access.update_screen) / 32]
        ready_device.m_cursor :=
  ⟨⟨rfl, rfl⟩,
    (blink_cadence sample_env ready_device after_32_frames
      (List.replicate 32 access.update_screen) rfl rfl).1,
    (blink_cadence sample_env ready_device after_32_frames
      (List.replicate 32 access.update_screen) rfl rfl).2.2.1⟩

/-! ## Character cells outside the glyph ranges -/

theorem chargen_addr_out_of_range (md cl : Nat)
    (hmd : md < 0x20 ∨ (0x80 ≤ md ∧ md < 0xa0)) : chargen_addr md cl = 0 := by
  unfold chargen_addr
  rw [if_neg (by omega), if_neg (by omega), if_neg (by omega)]

/-- C17, as stated, fails. With the internal character generator selected,
cursor and blink off and a ROM that holds 0xff at address 0, the cell of the
out-of-range character code 0 is not blank: `draw_char` writes the pixel value
1 at row 0, column 0. -/
theorem out_of_range_glyph_not_blank :
    small_text_device.m_mcr &&& MODE_EXTERNAL_CG = 0 ∧
    small_text_device.m_mcr &&& MODE_CURSOR = 0 ∧
    small_text_device.m_mcr &&& MODE_BLINK = 0 ∧
    (0 : Nat) < 0x20 ∧
    draw_op.plot 0 0 1 ∈ draw_char ones_env small_text_device 0 0 0 0 := by
  decide

/-- C17, amended. With the internal character generator selected and cursor
and blink off, for every ROM content, every character code outside the glyph
ranges (below 0x20, or from 0x80 up to 0x9f) and every line, each pixel
`draw_char` writes for the cell is a bit of the ROM byte at address 0: the bit
of the pixel's column within the cell. The cell is blank when that byte is
0. -/
theorem out_of_range_glyph_reads_rom_zero (env : render_env) (s : hd61830_device)
    (ma : Nat) (x y : Int) (md : Nat)
    (hcg : s.m_mcr &&& MODE_EXTERNAL_CG = 0) (hcur : s.m_mcr &&& MODE_CURSOR = 0)
    (hblink : s.m_mcr &&& MODE_BLINK = 0)
    (hmd : md < 0x20 ∨ (0x80 ≤ md ∧ md < 0xa0)) :
    (∀ op ∈ draw_char env s ma x y md,
      ∃ cl cr : Nat, (cl : Int) < s.m_vp ∧ (cr : Int) < s.m_hp ∧
        op = draw_op.plot (y * s.m_vp + cl) (x * s.m_hp + cr) (BIT (env.rom 0) cr)) ∧
    (env.rom 0 = 0 →
      ∀ op ∈ draw_char env s ma x y md, ∃ sy sx, op = draw_op.plot sy sx 0) := by
  have hpix : ∀ cl cr : Nat, char_pixel env s ma md cl cr = BIT (env.rom 0) cr := by
    intro cl cr
    simp [char_pixel, hcg, hcur, hblink, chargen_addr_out_of_range md cl hmd]
  have hmain : ∀ op ∈ draw_char env s ma x y md,
      ∃ cl cr : Nat, (cl : Int) < s.m_vp ∧ (cr : Int) < s.m_hp ∧
        op = draw_op.plot (y * s.m_vp + cl) (x * s.m_hp + cr) (BIT (env.rom 0) cr) := by
    intro op hop
    simp only [draw_char, List.mem_flatMap, List.mem_range] at hop
    obtain ⟨cl, hcl, cr, hcr, hop⟩ := hop
    split_ifs at hop
    · simp only [List.mem_singleton] at hop
      refine ⟨cl, cr, by omega, by omega, ?_⟩
      rw [hop, hpix]
    · simp at hop
  refine ⟨hmain, fun hrom op hop => ?_⟩
  obtain ⟨cl, cr, _, _, rfl⟩ := hmain op hop
  refine ⟨y * s.m_vp + cl, x * s.m_hp + cr, ?_⟩
  rw [hrom]
  simp [BIT]

/-- The amended theorem applied to the small text-mode device, character code 0
and a ROM of all ones: the pixel written at row 0, column 0 is bit 0 of ROM
byte 0. -/
theorem out_of_range_glyph_reads_rom_zero_witness :
    (small_text_device.m_mcr &&& MODE_EXTERNAL_CG = 0 ∧
      small_text_device.m_mcr &&& MODE_CURSOR = 0 ∧
      small_text_device.m_mcr &&& MODE_BLINK = 0 ∧ (0 : Nat) < 0x20) ∧
    ∃ cl cr : Nat, (cl : Int) < small_text_device.m_vp ∧ (cr : Int) < small_text_device.m_hp ∧
      draw_op.plot 0 0 1 =
        draw_op.plot (0 * small_text_device.m_vp + cl) (0 * small_text_device.m_hp + cr)
          (BIT (ones_env.rom 0) cr) :=
  ⟨⟨by decide, by decide, by decide, by decide⟩,
    (out_of_range_glyph_reads_rom_zero ones_env small_text_device 0 0 0 0
      (by decide) (by decide) (by decide) (Or.inl (by decide))).1
      (draw_op.plot 0 0 1) (by decide)⟩

end HD61830

namespace C64CPM

/-! ## State saving -/

/-- C18 fails on the code: `device_start` registers `m_enabled` and `m_ba` but
not `m_reset`. Saving a cartridge whose Z80 is running (`m_reset` 0) and
restoring the snapshot into a machine that has just been reset (`m_reset` 1)
gives a cartridge with `m_reset` 1, not the saved one; its next
`update_signals`, here caused by a change of BA, resets the Z80, which the
saved machine would not have done. -/
theorem save_misses_m_reset :
    device_start = [member.m_enabled, member.m_ba] ∧
    member.m_reset ∉ device_start ∧
    restore (device_reset power_on).cart (save running_cart) =
      { m_enabled := 1, m_ba := 1, m_reset := 1 } ∧
    restore (device_reset power_on).cart (save running_cart) ≠ running_cart ∧
    (c64_game_r { device_reset power_on with
        cart := restore (device_reset power_on).cart (save running_cart) } 0).1.z80_resets = 1 ∧
    (c64_game_r { device_reset power_on with cart := running_cart } 0).1.z80_resets = 0 := by
  decide

end C64CPM

namespace Gridlee

/-! ## Interrupt timers -/

/-- C19 (IRQ assert and clear pairing). `irq_timer_tick` with parameter `p`
asserts the IRQ line and arms `m_irq_off` for horizontal position
`GRIDLEE_HBSTART` on scanline `p`, and `irq_off_tick` clears the IRQ line.
`firq_timer_tick` asserts the FIRQ line, re-arms `m_firq_timer` for scanline
92 and arms `m_firq_off` for horizontal position `GRIDLEE_HBSTART` on scanline
92, and `firq_off_tick` clears the FIRQ line. Neither pair touches the line or
the timers of the other. -/
theorem irq_assert_clear_pairing (hbstart : Int) (st : gridlee_state) (p : Int) :
    ((irq_timer_tick hbstart st p).irq_line = true ∧
      (irq_timer_tick hbstart st p).m_irq_off =
        some { vpos := p, hpos := hbstart, param := 0 } ∧
      (irq_timer_tick hbstart st p).firq_line = st.firq_line ∧
      (irq_timer_tick hbstart st p).m_firq_timer = st.m_firq_timer ∧
      (irq_timer_tick hbstart st p).m_firq_off = st.m_firq_off) ∧
    ((irq_off_tick st).irq_line = false ∧ (irq_off_tick st).firq_line = st.firq_line) ∧
    ((firq_timer_tick hbstart st).firq_line = true ∧
      (firq_timer_tick hbstart st).m_firq_timer = some { vpos := 92, hpos := 0, param := 0 } ∧
      (firq_timer_tick hbstart st).m_firq_off =
        some { vpos := 92, hpos := hbstart, param := 0 } ∧
      (firq_timer_tick hbstart st).irq_line = st.irq_line ∧
      (firq_timer_tick hbstart st).m_irq_timer = st.m_irq_timer ∧
      (firq_timer_tick hbstart st).m_irq_off = st.m_irq_off) ∧
    ((firq_off_tick st).firq_line = false ∧ (firq_off_tick st).irq_line = st.irq_line) := by
  refine ⟨⟨?_, ?_, ?_, ?_, ?_⟩, ⟨rfl, rfl⟩, ⟨rfl, rfl, rfl, rfl, rfl, rfl⟩,
    ⟨rfl, rfl⟩⟩
  all_goals
    unfold irq_timer_tick
    split_ifs <;> rfl

/-! ## Trackball port -/

/-- C20 fails on the code. Starting with both trackball arrays zero, a first
read of port 0 while the trackball reads 0x20 returns 0 and leaves the running
total `m_last_analog_output[0]` at 0x20; a second read with the trackball
still at 0x20 (delta 0) returns that total unmasked: 0x20, which has bit 5 set
and is not less than 0x20. -/
theorem analog_port_r_small_delta_unmasked :
    (analog_port_r moved_ports idle_state 0).2 = 0 ∧
    (analog_port_r moved_ports idle_state 0).1.m_last_analog_output 0 = 0x20 ∧
    (analog_port_r moved_ports idle_state 0).1.m_last_analog_input 0 = 0x20 ∧
    (analog_port_r moved_ports (analog_port_r moved_ports idle_state 0).1 0).2 = 0x20 ∧
    ¬ (analog_port_r moved_ports (analog_port_r moved_ports idle_state 0).1 0).2 < 0x20 := by
  decide

/-! ## The IRQ schedule -/

theorem irq_schedule_succ (k : Nat) :
    irq_schedule (k + 1) = if irq_schedule k = 256 then 64 else irq_schedule k + 64 := by
  unfold irq_schedule
  by_cases hk : k = 0
  · subst hk
    decide
  · have h1 : ¬ (k + 1 = 0) := by omega
    simp only [hk, h1, if_false, Nat.add_sub_cancel]
    split_ifs <;> omega

theorem irq_schedule_range (n : Nat) :
    (64 : Int) ∣ irq_schedule n ∧ 0 ≤ irq_schedule n ∧ irq_schedule n ≤ 256 := by
  unfold irq_schedule
  split_ifs
  · exact ⟨⟨0, by norm_num⟩, by norm_num, by norm_num⟩
  · refine ⟨⟨(((n - 1) % 4 + 1 : Nat) : Int), by push_cast; ring⟩, by omega, by omega⟩

theorem fire_irq_timer (hbstart : Int) (st st1 : gridlee_state) (t : timer_id) (k : Nat)
    (harm : st.m_irq_timer =
      some { vpos := irq_schedule k, hpos := 0, param := irq_schedule k })
    (h : fire hbstart st t = some st1) :
    (t = timer_id.irq_timer → tick_param st t = [irq_schedule k] ∧
      st1.m_irq_timer =
        some { vpos := irq_schedule (k + 1), hpos := 0, param := irq_schedule (k + 1) }) ∧
    (t ≠ timer_id.irq_timer → tick_param st t = [] ∧ st1.m_irq_timer = st.m_irq_timer) := by
  cases t with
  | irq_timer =>
    refine ⟨fun _ => ?_, fun hne => absurd rfl hne⟩
    simp only [fire, harm, Option.some.injEq] at h
    subst h
    refine ⟨by simp [tick_param, harm], ?_⟩
    rw [irq_schedule_succ]
    unfold irq_timer_tick
    split_ifs <;> rfl
  | irq_off =>
    refine ⟨fun he => (by cases he), fun _ => ⟨rfl, ?_⟩⟩
    simp only [fire] at h
    cases ho : st.m_irq_off with
    | none => simp [ho] at h
    | some a =>
      simp only [ho, Option.some.injEq] at h
      subst h
      rfl
  | firq_timer =>
    refine ⟨fun he => (by cases he), fun _ => ⟨rfl, ?_⟩⟩
    simp only [fire] at h
    cases ho : st.m_firq_timer with
    | none => simp [ho] at h
    | some a =>
      simp only [ho, Option.some.injEq] at h
      subst h
      rfl
  | firq_off =>
    refine ⟨fun he => (by cases he), fun _ => ⟨rfl, ?_⟩⟩
    simp only [fire] at h
    cases ho : st.m_firq_off with
    | none => simp [ho] at h
    | some a =>
      simp only [ho, Option.some.injEq] at h
      subst h
      rfl

theorem run_timers_schedule (hbstart : Int) (evs : List timer_id) :
    ∀ (st : gridlee_state) (k : Nat) (r : gridlee_state × List Int),
      st.m_irq_timer = some { vpos := irq_schedule k, hpos := 0, param := irq_schedule k } →
      run_timers hbstart st evs = some r →
      r.2 = (List.range (evs.count timer_id.irq_timer)).map (fun i => irq_schedule (k + i)) := by
  induction evs with
  | nil =>
    intro st k r _ h
    simp only [run_timers, Option.some.injEq] at h
    subst h
    rfl
  | cons t rest ih =>
    intro st k r harm h
    simp only [run_timers] at h
    cases hf : fire hbstart st t with
    | none => simp [hf] at h
    | some st1 =>
      simp only [hf] at h
      cases hr : run_timers hbstart st1 rest with
      | none => simp [hr] at h
      | some r1 =>
        simp only [hr, Option.some.injEq] at h
        subst h
        obtain ⟨hirq, hother⟩ := fire_irq_timer hbstart st st1 t k harm hf
        by_cases ht : t = timer_id.irq_timer
        · obtain ⟨hp, harm1⟩ := hirq ht
          have hrest := ih st1 (k + 1) r1 harm1 hr
          subst ht
          simp only [hp, hrest, List.count_cons_self, List.range_succ_eq_map, List.map_cons,
            List.map_map, List.singleton_append, Nat.add_zero]
          congr 1
          apply List.map_congr_left
          intro i _
          simp only [Function.comp, Nat.succ_eq_add_one]
          congr 1
          omega
        · obtain ⟨hp, harm1⟩ := hother ht
          have hrest := ih st1 k r1 (harm1.trans harm) hr
          have hc : (t :: rest).count timer_id.irq_timer = rest.count timer_id.irq_timer := by
            rw [List.count_cons]
            simp [ht]
          simp only [hp, hrest, hc, List.nil_append]

theorem run_timers_irq_only (hbstart : Int) (n : Nat) :
    ∀ (st : gridlee_state), (∃ a, st.m_irq_timer = some a) →
      ∃ r, run_timers hbstart st (List.replicate n timer_id.irq_timer) = some r := by
  induction n with
  | zero =>
    intro st _
    exact ⟨(st, []), rfl⟩
  | succ n ih =>
    intro st ⟨a, ha⟩
    have hnext : ∃ b, (irq_timer_tick hbstart { st with m_irq_timer := none } a.param).m_irq_timer
        = some b := by
      unfold irq_timer_tick
      split_ifs <;> exact ⟨_, rfl⟩
    obtain ⟨r, hr⟩ := ih _ hnext
    refine ⟨(r.1, tick_param st timer_id.irq_timer ++ r.2), ?_⟩
    simp only [List.replicate_succ, run_timers, fire, ha, hr]

/-- C21 (IRQ scanline schedule). `MACHINE_RESET` arms the IRQ timer for
scanline 0 with parameter 0. `irq_timer_tick` with parameter `p` re-arms the
timer for scanline `p + 64` with parameter `p + 64`, and for scanline 64 with
parameter 64 when `p` is 256. Hence, whatever timers fire after a reset and in
whatever order, the parameters of the successive calls of `irq_timer_tick` are
0, 64, 128, 192, 256, 64, 128, ...: call number `i` receives
`irq_schedule i`, a multiple of 64 between 0 and 256. Any number of IRQ ticks
in a row can fire. -/
theorem irq_tick_parameters (hbstart : Int) (st : gridlee_state) :
    (MACHINE_RESET st).m_irq_timer = some { vpos := 0, hpos := 0, param := 0 } ∧
    (∀ (s : gridlee_state) (p : Int),
      (irq_timer_tick hbstart s p).m_irq_timer =
        some (if p = 256 then { vpos := 64, hpos := 0, param := 64 }
          else { vpos := p + 64, hpos := 0, param := p + 64 })) ∧
    (∀ (evs : List timer_id) (r : gridlee_state × List Int),
      run_timers hbstart (MACHINE_RESET st) evs = some r →
      r.2 = (List.range (evs.count timer_id.irq_timer)).map irq_schedule ∧
      ∀ p ∈ r.2, (64 : Int) ∣ p ∧ 0 ≤ p ∧ p ≤ 256) ∧
    (∀ n : Nat, ∃ r, run_timers hbstart (MACHINE_RESET st)
      (List.replicate n timer_id.irq_timer) = some r) ∧
    (List.range 9).map irq_schedule = [0, 64, 128, 192, 256, 64, 128, 192, 256] := by
  refine ⟨rfl, ?_, ?_, ?_, by decide⟩
  · intro s p
    unfold irq_timer_tick
    split_ifs <;> rfl
  · intro evs r h
    have hs := run_timers_schedule hbstart evs (MACHINE_RESET st) 0 r rfl h
    simp only [Nat.zero_add] at hs
    refine ⟨hs, ?_⟩
    intro p hp
    rw [hs, List.mem_map] at hp
    obtain ⟨i, _, rfl⟩ := hp
    exact irq_schedule_range i
  · intro n
    exact run_timers_irq_only hbstart n (MACHINE_RESET st) ⟨_, rfl⟩

/-- The schedule theorem applied to the idle state, reset, with six IRQ ticks
among which the IRQ-off timer and the FIRQ timer fire as well: the six
parameters are 0, 64, 128, 192, 256, 64. -/
theorem irq_tick_parameters_witness :
    ∃ r, run_timers 256 (MACHINE_RESET idle_state)
        [timer_id.irq_timer, timer_id.irq_off, timer_id.irq_timer, timer_id.firq_timer,
          timer_id.irq_timer, timer_id.irq_timer, timer_id.irq_timer, timer_id.irq_off,
          timer_id.irq_timer] = some r ∧
      r.2 = [0, 64, 128, 192, 256, 64] := by
  obtain ⟨r, hr⟩ : ∃ r, run_timers 256 (MACHINE_RESET idle_state)
      [timer_id.irq_timer, timer_id.irq_off, timer_id.irq_timer, timer_id.firq_timer,
        timer_id.irq_timer, timer_id.irq_timer, timer_id.irq_timer, timer_id.irq_off,
        timer_id.irq_timer] = some r := ⟨_, rfl⟩
  refine ⟨r, hr, ?_⟩
  rw [((irq_tick_parameters 256 idle_state).2.2.1 _ r hr).1]
  decide

/-! ## The trackball delta -/

theorem analog_port_r_eq (ports : Nat → Nat) (st : gridlee_state) (offset : Nat) :
    analog_port_r ports st offset =
      if analog_delta (ports (offset + 2 * st.m_cocktail_flip) % 256)
            (st.m_last_analog_input offset) ≥ -1 ∧
          analog_delta (ports (offset + 2 * st.m_cocktail_flip) % 256)
            (st.m_last_analog_input offset) ≤ 1 then
        (st, st.m_last_analog_output offset % 256)
      else
        (analog_port_r ports st offset) := by
  unfold analog_port_r analog_delta
  simp only []
  split_ifs <;> rfl

theorem analog_port_r_large (ports : Nat → Nat) (st : gridlee_state) (offset : Nat) (δ : Int)
    (hδ : δ = analog_delta (ports (offset + 2 * st.m_cocktail_flip) % 256)
      (st.m_last_analog_input offset))
    (hbig : ¬ (-1 ≤ δ ∧ δ ≤ 1)) :
    analog_port_r ports st offset =
      ({ st with
          m_last_analog_input := fun i =>
            if i = offset then ports (offset + 2 * st.m_cocktail_flip) % 256
            else st.m_last_analog_input i
          m_last_analog_output := fun i =>
            if i = offset then
              (((st.m_last_analog_output offset : Int) + (if δ < 0 then -δ else δ)) % 256).toNat
            else st.m_last_analog_output i },
        (((((st.m_last_analog_output offset : Int) + (if δ < 0 then -δ else δ)) % 256).toNat
            &&& 15) ||| (if δ < 0 then 0x10 else 0x00)) % 256) := by
  subst hδ
  unfold analog_port_r
  unfold analog_delta at hbig ⊢
  simp only [] at hbig ⊢
  simp only [ge_iff_le, ↓reduceIte]
  rw [if_neg hbig]

/-- C22 (trackball wraparound delta). For bytes `newval` and `last` the delta
`analog_port_r` uses after its two wrap adjustments differs from
`newval - last` by a multiple of 256 and lies between -127 and 128. The
handler is then given in full in terms of that delta, taken at the byte the
port reads and the stored entry of `m_last_analog_input`. When the delta is
-1, 0 or 1 the handler returns the stored entry of `m_last_analog_output` and
the driver state unchanged, so neither trackball array changes. Otherwise it
stores the new byte in `m_last_analog_input`, adds the magnitude of the delta
to the entry of `m_last_analog_output` (a byte), leaves every other entry and
member as it was, and returns the low four bits of the new total with 0x10
set exactly when the delta is negative. -/
theorem analog_delta_wrap (ports : Nat → Nat) (st : gridlee_state) (offset : Nat)
    (newval last : Nat) (hnew : newval < 256) (hlast : last < 256)
    (hout : st.m_last_analog_output offset < 256) :
    ((256 : Int) ∣ analog_delta newval last - ((newval : Int) - (last : Int)) ∧
      -127 ≤ analog_delta newval last ∧ analog_delta newval last ≤ 128) ∧
    ((-1 ≤ analog_delta (ports (offset + 2 * st.m_cocktail_flip) % 256)
          (st.m_last_analog_input offset) ∧
        analog_delta (ports (offset + 2 * st.m_cocktail_flip) % 256)
          (st.m_last_analog_input offset) ≤ 1) →
      analog_port_r ports st offset = (st, st.m_last_analog_output offset)) ∧
    (∀ δ : Int,
      δ = analog_delta (ports (offset + 2 * st.m_cocktail_flip) % 256)
        (st.m_last_analog_input offset) →
      ¬ (-1 ≤ δ ∧ δ ≤ 1) →
      analog_port_r ports st offset =
        ({ st with
            m_last_analog_input := fun i =>
              if i = offset then ports (offset + 2 * st.m_cocktail_flip) % 256
              else st.m_last_analog_input i
            m_last_analog_output := fun i =>
              if i = offset then
                (((st.m_last_analog_output offset : Int) + (if δ < 0 then -δ else δ)) %
                  256).toNat
              else st.m_last_analog_output i },
          (((((st.m_last_analog_output offset : Int) + (if δ < 0 then -δ else δ)) %
              256).toNat &&& 15) ||| (if δ < 0 then 0x10 else 0x00)) % 256)) := by
  refine ⟨?_, ?_, ?_⟩
  · unfold analog_delta
    simp only []
    split_ifs <;> refine ⟨?_, by omega, by omega⟩
    · exact ⟨0, by ring⟩
    · exact ⟨-1, by ring⟩
    · exact ⟨1, by ring⟩
    · exact ⟨0, by ring⟩
  · intro hsmall
    rw [analog_port_r_eq, if_pos ⟨hsmall.1, hsmall.2⟩, Nat.mod_eq_of_lt hout]
  · intro δ hδ hbig
    exact analog_port_r_large ports st offset δ hδ hbig

/-- The delta theorem applied to a wrap from 0xfe to 0x01 (delta 3), to a
second read of an unmoved trackball (delta 0), which returns the stored total
0x20 and changes nothing, and to two reads with the last input 0xfe and the
total 0x0e: the port reading 0x01 (delta 3 after the wrap) stores 0x01, makes
the total 0x11 and returns 0x01; the port reading 0xfb (delta -3) stores 0xfb,
makes the total 0x11 and returns 0x11. -/
theorem analog_delta_wrap_witness :
    (((0x01 : Nat) < 256 ∧ (0xfe : Nat) < 256 ∧ analog_delta 0x01 0xfe = 3) ∧
      analog_port_r moved_ports (analog_port_r moved_ports idle_state 0).1 0 =
        ((analog_port_r moved_ports idle_state 0).1,
          (analog_port_r moved_ports idle_state 0).1.m_last_analog_output 0)) ∧
    ((analog_port_r wrap_ports wrap_state 0).2 = 0x01 ∧
      (analog_port_r wrap_ports wrap_state 0).1.m_last_analog_input 0 = 0x01 ∧
      (analog_port_r wrap_ports wrap_state 0).1.m_last_analog_output 0 = 0x11 ∧
      (analog_port_r wrap_ports wrap_state 0).1.m_last_analog_output 1 = 0) ∧
    ((analog_port_r back_ports wrap_state 0).2 = 0x11 ∧
      (analog_port_r back_ports wrap_state 0).1.m_last_analog_input 0 = 0xfb ∧
      (analog_port_r back_ports wrap_state 0).1.m_last_analog_output 0 = 0x11) :=
  ⟨⟨⟨by decide, by decide, by decide⟩,
      (analog_delta_wrap moved_ports (analog_port_r moved_ports idle_state 0).1 0 0x01 0xfe
        (by decide) (by decide) (by decide)).2.1 (by decide)⟩,
    (by
      rw [(analog_delta_wrap wrap_ports wrap_state 0 0x01 0xfe (by decide) (by decide)
        (by decide)).2.2 3 (by decide) (by decide)]
      decide),
    (by
      rw [(analog_delta_wrap back_ports wrap_state 0 0xfb 0xfe (by decide) (by decide)
        (by decide)).2.2 (-3) (by decide) (by decide)]
      decide)⟩

/-! ## The noise generator -/

theorem noise_index_eq (cc : Nat) (hcc : cc < 4294967296) :
    noise_index cc = (25 * cc / 2) % 131072 := by
  have hmask : ∀ x : Nat, x &&& POLY17_SIZE = x % 131072 :=
    fun x => Nat.and_pow_two_sub_one_eq_mod x 17
  have hdvd : (131072 : Nat) ∣ 4294967296 := ⟨32768, by norm_num⟩
  have h8 : (cc * 8 % 4294967296) % 131072 = cc * 8 % 131072 := Nat.mod_mod_of_dvd _ hdvd
  have h4 : (cc * 4 % 4294967296) % 131072 = cc * 4 % 131072 := Nat.mod_mod_of_dvd _ hdvd
  have hrhs : 25 * cc / 2 = cc * 8 + cc * 4 + cc / 2 := by omega
  have hlhs : noise_index cc =
      ((cc * 8 % 4294967296 + cc * 4 % 4294967296 + cc / 2) % 4294967296) % 131072 := by
    unfold noise_index
    simp only [hmask, Nat.shiftLeft_eq, Nat.shiftRight_eq_div_pow, Nat.mod_eq_of_lt hcc]
  rw [hlhs, hrhs, Nat.mod_mod_of_dvd _ hdvd]
  exact Nat.ModEq.add (Nat.ModEq.add h8 h4) rfl

/-- C23 (noise index). For every 32-bit cycle count `cc` the index
`random_num_r` computes, `(cc << 3) + (cc << 2) + (cc >> 1)` in 32-bit
arithmetic masked with 0x1FFFF, equals the integer part of `25 * cc / 2`
modulo 2^17. -/
theorem noise_index_formula (cc : Nat) (hcc : cc < 4294967296) :
    noise_index cc = (25 * cc / 2) % 131072 :=
  noise_index_eq cc hcc

/-- The noise-index theorem applied to 41943 cycles: the index is 0x1FFFF. -/
theorem noise_index_formula_witness :
    (41943 : Nat) < 4294967296 ∧ noise_index 41943 = (25 * 41943 / 2) % 131072 ∧
    (25 * 41943 / 2) % 131072 = 0x1FFFF :=
  ⟨by decide, noise_index_formula 41943 (by decide), by decide⟩

theorem poly17_loop_untouched (rand17 : Nat) (n : Nat) :
    ∀ (i x : Nat) (cell : Nat → Option Nat) (a : Nat),
      (a < i ∨ i + n ≤ a) → (a < rand17 + i ∨ rand17 + i + n ≤ a) →
      poly17_loop rand17 n i x cell a = cell a := by
  induction n with
  | zero =>
    intro i x cell a _ _
    rfl
  | succ n ih =>
    intro i x cell a h1 h2
    simp only [poly17_loop]
    rw [ih (i + 1) _ _ a (by omega) (by omega)]
    have e1 : a ≠ rand17 + i := by omega
    have e2 : a ≠ i := by omega
    simp [poke, e1, e2]

theorem poly17_loop_keeps (rand17 : Nat) (n : Nat) :
    ∀ (i x : Nat) (cell : Nat → Option Nat) (a : Nat),
      (∃ v, cell a = some v) → ∃ v, poly17_loop rand17 n i x cell a = some v := by
  induction n with
  | zero =>
    intro i x cell a h
    exact h
  | succ n ih =>
    intro i x cell a h
    simp only [poly17_loop]
    apply ih
    obtain ⟨v, hv⟩ := h
    simp only [poke]
    split_ifs
    · exact ⟨_, rfl⟩
    · exact ⟨_, rfl⟩
    · exact ⟨v, hv⟩

theorem poly17_loop_written (rand17 : Nat) (n : Nat) :
    ∀ (i x : Nat) (cell : Nat → Option Nat) (j : Nat), i ≤ j → j < i + n →
      ∃ v, poly17_loop rand17 n i x cell (rand17 + j) = some v := by
  induction n with
  | zero =>
    intro i x cell j h1 h2
    omega
  | succ n ih =>
    intro i x cell j h1 h2
    simp only [poly17_loop]
    by_cases hj : j = i
    · subst hj
      apply poly17_loop_keeps
      simp [poke]
    · exact ih (i + 1) _ _ j (by omega) (by omega)

theorem poly17_init_cell (a : Nat) :
    poly17_init.cell a =
      poly17_loop (POLY17_SIZE + 1) POLY17_SIZE 0 0 (fun _ => none) a := by
  simp only [poly17_init]

theorem poly17_init_rand17 : poly17_init.rand17 = POLY17_SIZE + 1 := by
  simp only [poly17_init]

/-- C27 fails on the code. The generation loop of `poly17_init` runs `i` from 0
below `POLY17_SIZE` = 0x1FFFF, so it writes the entries 0 to 0x1FFFE of
`m_rand17`; `random_num_r` masks its index with `POLY17_SIZE`, so the index can
be 0x1FFFF. At a total cycle count of 41943 the index is 0x1FFFF: the entry
lies inside the allocation but was never written. -/
theorem random_num_r_reads_unwritten :
    noise_index 41943 = 0x1FFFF ∧
    poly17_init.rand17 + noise_index 41943 < poly17_init.alloc ∧
    random_num_r poly17_init 41943 = none ∧
    (∀ j, j < 0x1FFFF → ∃ v, poly17_init.cell (poly17_init.rand17 + j) = some v) := by
  have hidx : noise_index 41943 = 0x1FFFF := by
    rw [noise_index_eq 41943 (by norm_num)]
  refine ⟨hidx, by rw [hidx]; decide, ?_, ?_⟩
  · unfold random_num_r
    rw [hidx, poly17_init_cell, poly17_init_rand17, poly17_loop_untouched]
    · right
      have : POLY17_SIZE = 0x1FFFF := by decide
      omega
    · right
      have : POLY17_SIZE = 0x1FFFF := by decide
      omega
  · intro j hj
    rw [poly17_init_cell, poly17_init_rand17]
    apply poly17_loop_written
    · omega
    · have : POLY17_SIZE = 0x1FFFF := by decide
      omega

end Gridlee

namespace MacRBV

/-! ## The RAMDAC of the RBV -/

theorem rbv_count_in_bounds (make_rgb : Nat → Nat → Nat → Nat) (st : rbv_state)
    (offset data : Nat) (h : st.rbv_count < 3) :
    (rbv_ramdac_w make_rgb st offset data).1.rbv_count < 3 ∧
    ∀ i v, rbv_effect.colors_store i v ∈ (rbv_ramdac_w make_rgb st offset data).2 → i < 3 := by
  unfold rbv_ramdac_w
  by_cases ho : offset = 0
  · simp [ho]
  · simp only [ho, if_false]
    have hmod : (st.rbv_count + 1) % 4294967296 = st.rbv_count + 1 := by omega
    by_cases h3 : st.rbv_count + 1 = 3
    · simp only [hmod, h3, if_true]
      refine ⟨by decide, ?_⟩
      intro i v hm
      simp only [List.mem_cons, rbv_effect.colors_store.injEq, List.mem_singleton,
        List.not_mem_nil, or_false, reduceCtorEq] at hm
      omega
    · simp only [hmod, h3, if_false]
      refine ⟨by omega, ?_⟩
      intro i v hm
      simp only [List.mem_singleton, rbv_effect.colors_store.injEq] at hm
      omega

/-- C28 fails on the code. After `VIDEO_START`, an address write selecting
entry 0xff followed by six component writes completes two colours: the first
is stored at index 255, after which `rbv_clutoffs` is incremented to 256
without wrapping, and the second is stored at index 256, past the end of the
256-entry array `rbv_palette`. The component index of `rbv_colors` stays
below 3 on the way. -/
theorem palette_store_past_end :
    (run_writes pack_rgb (VIDEO_START zero_state) two_colours_at_last_entry).2 =
      [rbv_effect.colors_store 0 0x11, rbv_effect.colors_store 1 0x22,
        rbv_effect.colors_store 2 0x33,
        rbv_effect.palette_set_color 255 0xff112233, rbv_effect.palette_store 255 0xff112233,
        rbv_effect.colors_store 0 0x44, rbv_effect.colors_store 1 0x55,
        rbv_effect.colors_store 2 0x66,
        rbv_effect.palette_set_color 256 0xff445566,
        rbv_effect.palette_store 256 0xff445566] ∧
    ¬ (256 < RBV_PALETTE_SIZE) ∧
    (run_writes pack_rgb (VIDEO_START zero_state) two_colours_at_last_entry).1.rbv_clutoffs
      = 257 := by
  decide

end MacRBV

namespace HD61830

/-! ## The character generator address -/

/-- C24, as stated, fails for the lines at or beyond the glyph height. Code
0xa0 with line 7 and code 0xe0 with line 11 are within the stated domain (code
below 256, line below 16), but `draw_char` computes address 0 for them, which
is neither in 672..1119 nor in 1120..1471. -/
theorem chargen_addr_tall_line_is_zero :
    ((0xa0 : Nat) < 256 ∧ (7 : Nat) < 16 ∧ chargen_addr 0xa0 7 = 0 ∧
      ¬ (672 ≤ chargen_addr 0xa0 7)) ∧
    ((0xe0 : Nat) < 256 ∧ (11 : Nat) < 16 ∧ chargen_addr 0xe0 11 = 0 ∧
      ¬ (1120 ≤ chargen_addr 0xe0 11)) := by
  decide

/-- C24, amended. With the internal character generator, for every character
code below 256 and every line below 16 the address `draw_char` computes is
less than 0x5C0, the size of the ROM region. The glyph lines (lines below 7 of
the codes 0x20..0x7f and 0xa0..0xdf, lines below 11 of the codes 0xe0..0xff)
lie at 0..671 for 0x20..0x7f, at 672..1119 for 0xa0..0xdf and at 1120..1471
for 0xe0..0xff; every pair that is not a glyph line maps to address 0, so the
codes 0x20..0x7f stay within 0..671 on every line. Distinct glyph lines have
distinct addresses. -/
theorem chargen_addr_in_rom (md cl md2 cl2 : Nat) (hmd : md < 256) (hcl : cl < 16) :
    chargen_addr md cl < 0x5c0 ∧
    (0x20 ≤ md ∧ md < 0x80 → chargen_addr md cl ≤ 671) ∧
    (0xa0 ≤ md ∧ md < 0xe0 ∧ cl < 7 → 672 ≤ chargen_addr md cl ∧ chargen_addr md cl ≤ 1119) ∧
    (0xe0 ≤ md ∧ cl < 11 → 1120 ≤ chargen_addr md cl ∧ chargen_addr md cl ≤ 1471) ∧
    (¬ glyph_line md cl → chargen_addr md cl = 0) ∧
    (glyph_line md cl → glyph_line md2 cl2 → chargen_addr md cl = chargen_addr md2 cl2 →
      md = md2 ∧ cl = cl2) := by
  refine ⟨?_, ?_, ?_, ?_, ?_, ?_⟩
  · unfold chargen_addr
    split_ifs <;> omega
  · intro h
    unfold chargen_addr
    split_ifs <;> omega
  · intro h
    unfold chargen_addr
    split_ifs <;> omega
  · intro h
    unfold chargen_addr
    split_ifs <;> omega
  · intro h
    unfold glyph_line at h
    unfold chargen_addr
    split_ifs <;> omega
  · intro h1 h2
    unfold glyph_line at h1 h2
    unfold chargen_addr
    split_ifs <;> omega

/-- The address theorem applied to the last line of the last glyph (code 0xff,
line 10), which has the last address of the ROM, 0x5bf. -/
theorem chargen_addr_in_rom_witness :
    ((0xff : Nat) < 256 ∧ (10 : Nat) < 16) ∧ chargen_addr 0xff 10 < 0x5c0 ∧
    chargen_addr 0xff 10 = 0x5bf :=
  ⟨⟨by decide, by decide⟩, (chargen_addr_in_rom 0xff 10 0x20 0 (by decide) (by decide)).1,
    by decide⟩

/-! ## Setting the cursor address with two writes -/

theorem data_w_cursor_address_high (s : hd61830_device) (d : Nat)
    (hready : s.m_bf = false) (hir : s.m_ir = 11) :
    data_w s d = some { s with
      m_cac := ((d <<< 8) ||| (s.m_cac &&& 0xff)) % 65536
      m_bf := true
      m_busy_timer := some 4 } := by
  have hcyc : CYCLES[(11 : Nat)]? = some 4 := by decide
  simp +decide only [data_w, hready, hir, ↓reduceIte, if_false, if_true,
    INSTRUCTION_MODE_CONTROL, INSTRUCTION_CHARACTER_PITCH,
    INSTRUCTION_NUMBER_OF_CHARACTERS, INSTRUCTION_NUMBER_OF_TIME_DIVISIONS,
    INSTRUCTION_CURSOR_POSITION, INSTRUCTION_DISPLAY_START_LOW,
    INSTRUCTION_DISPLAY_START_HIGH, INSTRUCTION_CURSOR_ADDRESS_LOW,
    INSTRUCTION_CURSOR_ADDRESS_HIGH, set_busy_flag, hcyc,
    timer_adjust_oneshot, ATTOTIME_IN_USEC]

theorem high_write_value (c hi : Nat) (hhi : hi < 256) :
    ((hi <<< 8) ||| (c &&& 0xff)) % 65536 = hi * 256 + c % 256 := by
  rw [and_ff, shiftLeft8_or _ _ (Nat.mod_lt c (by norm_num))]
  omega

theorem low_write_value (c lo : Nat) (hlo : lo < 256) :
    (if BIT c 7 ≠ 0 ∧ ¬ (BIT lo 7 ≠ 0) then ((((c >>> 8) + 1) <<< 8) ||| lo) % 65536
      else ((c &&& 0xff00) ||| lo) % 65536) =
    (if c.testBit 7 = true ∧ lo.testBit 7 = false then ((c / 256 + 1) % 256) * 256 + lo
      else (c / 256 % 256) * 256 + lo) := by
  have h1 : c &&& 0xff00 = (c / 256 % 256) <<< 8 := by
    rw [and_ff00, Nat.shiftLeft_eq]
  by_cases hcond : BIT c 7 ≠ 0 ∧ ¬ (BIT lo 7 ≠ 0)
  · have hcond2 : c.testBit 7 = true ∧ lo.testBit 7 = false := by
      refine ⟨(BIT_ne_zero_iff _ _).1 hcond.1, ?_⟩
      have h2 := hcond.2
      rw [BIT_ne_zero_iff] at h2
      simpa using h2
    rw [if_pos hcond, if_pos hcond2, shiftLeft8_or _ _ hlo, Nat.shiftRight_eq_div_pow]
    omega
  · have hcond2 : ¬ (c.testBit 7 = true ∧ lo.testBit 7 = false) := by
      intro h
      apply hcond
      refine ⟨(BIT_ne_zero_iff _ _).2 h.1, ?_⟩
      rw [BIT_ne_zero_iff]
      simp [h.2]
    rw [if_neg hcond, if_neg hcond2, h1, shiftLeft8_or _ _ hlo]
    omega

theorem testBit7_low_byte (hi c : Nat) : (hi * 256 + c % 256).testBit 7 = c.testBit 7 := by
  have h : (hi * 256 + c % 256) / 2 ^ 7 % 2 = c / 2 ^ 7 % 2 := by
    have e : (2 : Nat) ^ 7 = 128 := by norm_num
    rw [e]
    omega
  rw [Nat.testBit_to_div_mod, Nat.testBit_to_div_mod, h]

theorem run_two_writes (env : render_env) (s s1 : hd61830_device) (i1 d1 i2 d2 : Nat)
    (h1 : data_w (control_w s i1) d1 = some s1) (hb : ∃ us, s1.m_busy_timer = some us) :
    run env s [access.control_w i1, access.data_w d1, access.device_timer,
        access.control_w i2, access.data_w d2] =
      data_w (control_w (device_timer { s1 with m_busy_timer := none }) i2) d2 := by
  obtain ⟨us, hus⟩ := hb
  simp only [run, step, h1, busy_timer_expiry, hus]
  cases data_w (control_w (device_timer { s1 with m_busy_timer := none }) i2) d2 <;> rfl

/-- C26 (order of the two cursor-address writes). From a ready device with any
cursor address `c`, for bytes `hi` and `lo`: writing CURSOR_ADDRESS_LOW = `lo`
and then CURSOR_ADDRESS_HIGH = `hi`, both accepted, leaves the cursor address
at `hi * 256 + lo`. Writing CURSOR_ADDRESS_HIGH = `hi` and then
CURSOR_ADDRESS_LOW = `lo` leaves it at `hi * 256 + lo` as well, unless bit 7
of `c` was set and bit 7 of `lo` is clear: then it is
`((hi + 1) mod 256) * 256 + lo`. -/
theorem cursor_two_writes (env : render_env) (s : hd61830_device) (hi lo : Nat)
    (hready : s.m_bf = false) (hhi : hi < 256) (hlo : lo < 256) :
    (∃ s1, run env s (cursor_low_then_high lo hi) = some s1 ∧ s1.m_cac = hi * 256 + lo) ∧
    (∃ s2, run env s (cursor_high_then_low hi lo) = some s2 ∧
      s2.m_cac = (if s.m_cac.testBit 7 = true ∧ lo.testBit 7 = false then
        ((hi + 1) % 256) * 256 + lo else hi * 256 + lo)) := by
  constructor
  · have h1 := data_w_cursor_address_low (control_w s INSTRUCTION_CURSOR_ADDRESS_LOW) lo
      hready rfl
    have hrun := run_two_writes env s _ INSTRUCTION_CURSOR_ADDRESS_LOW lo
      INSTRUCTION_CURSOR_ADDRESS_HIGH hi h1 ⟨4, rfl⟩
    rw [data_w_cursor_address_high _ hi rfl rfl] at hrun
    refine ⟨_, hrun, ?_⟩
    simp only [control_w, device_timer]
    rw [high_write_value _ _ hhi, low_write_value _ _ hlo]
    split_ifs <;> omega
  · have h1 := data_w_cursor_address_high (control_w s INSTRUCTION_CURSOR_ADDRESS_HIGH) hi
      hready rfl
    have hrun := run_two_writes env s _ INSTRUCTION_CURSOR_ADDRESS_HIGH hi
      INSTRUCTION_CURSOR_ADDRESS_LOW lo h1 ⟨4, rfl⟩
    rw [data_w_cursor_address_low _ lo rfl rfl] at hrun
    refine ⟨_, hrun, ?_⟩
    simp only [control_w, device_timer]
    rw [low_write_value _ _ hlo, high_write_value _ _ hhi, testBit7_low_byte]
    have hq : (hi * 256 + s.m_cac % 256) / 256 = hi := by omega
    rw [hq, Nat.mod_eq_of_lt hhi]

/-- The two-write theorem applied to a device whose cursor address is 0x12c0
(bit 7 set), with `hi` = 0x34 and `lo` = 0x10 (bit 7 clear): low then high
gives 0x3410, high then low gives 0x3510. -/
theorem cursor_two_writes_witness :
    (cursor_low_device.m_bf = false ∧ (0x34 : Nat) < 256 ∧ (0x10 : Nat) < 256) ∧
    (∃ s1, run sample_env cursor_low_device (cursor_low_then_high 0x10 0x34) = some s1 ∧
      s1.m_cac = 0x34 * 256 + 0x10) ∧
    (∃ s2, run sample_env cursor_low_device (cursor_high_then_low 0x34 0x10) = some s2 ∧
      s2.m_cac = (if cursor_low_device.m_cac.testBit 7 = true ∧ (0x10 : Nat).testBit 7 = false
        then ((0x34 + 1) % 256) * 256 + 0x10 else 0x34 * 256 + 0x10)) :=
  ⟨⟨rfl, by decide, by decide⟩,
    cursor_two_writes sample_env cursor_low_device 0x34 0x10 rfl (by decide) (by decide)⟩

/-! ## The geometry registers -/

theorem ite_some_cases {α : Type} {P : Prop} (c : Prop) [Decidable c] {x y : Option α} {r : α}
    (h : (if c then x else y) = some r) (hx : c → x = some r → P) (hy : ¬ c → y = some r → P) :
    P := by
  by_cases hc : c
  · rw [if_pos hc] at h
    exact hx hc h
  · rw [if_neg hc] at h
    exact hy hc h

theorem set_busy_flag_geometry (t s1 : hd61830_device) (h : set_busy_flag t = some s1) :
    s1.m_hp = t.m_hp ∧ s1.m_vp = t.m_vp ∧ s1.m_hn = t.m_hn ∧ s1.m_nx = t.m_nx ∧
    s1.m_cp = t.m_cp := by
  unfold set_busy_flag at h
  cases hc : CYCLES[t.m_ir]? with
  | none => simp [hc] at h
  | some c =>
    simp only [hc, Option.some.injEq] at h
    subst h
    exact ⟨rfl, rfl, rfl, rfl, rfl⟩

theorem and7f_lt (d : Nat) : d &&& 0x7f < 128 := by
  have h := Nat.and_pow_two_sub_one_eq_mod d 7
  have h2 : d &&& 0x7f = d % 128 := by simpa using h
  omega

theorem data_w_geometry (s s1 : hd61830_device) (d : Nat) (hd : d < 256)
    (h : data_w s d = some s1) :
    ∀ reg ∈ geometry_regs,
      ((s.m_bf = false ∧ s.m_ir = reg.1) ∨ reg_ok reg s) → reg_ok reg s1 := by
  have k0 : INSTRUCTION_MODE_CONTROL = 0 := rfl
  have k1 : INSTRUCTION_CHARACTER_PITCH = 1 := rfl
  have k2 : INSTRUCTION_NUMBER_OF_CHARACTERS = 2 := rfl
  have k3 : INSTRUCTION_NUMBER_OF_TIME_DIVISIONS = 3 := rfl
  have k4 : INSTRUCTION_CURSOR_POSITION = 4 := rfl
  have k8 : INSTRUCTION_DISPLAY_START_LOW = 8 := rfl
  have k9 : INSTRUCTION_DISPLAY_START_HIGH = 9 := rfl
  have k10 : INSTRUCTION_CURSOR_ADDRESS_LOW = 10 := rfl
  have k11 : INSTRUCTION_CURSOR_ADDRESS_HIGH = 11 := rfl
  have k12 : INSTRUCTION_DISPLAY_DATA_WRITE = 12 := rfl
  have k14 : INSTRUCTION_CLEAR_BIT = 14 := rfl
  have k15 : INSTRUCTION_SET_BIT = 15 := rfl
  have b7 : d &&& 0x07 < 8 := and7_lt d
  have b7f : d &&& 0x7f < 128 := and7f_lt d
  have bsh : d >>> 4 < 16 := by
    rw [Nat.shiftRight_eq_div_pow]
    have e : (2 : Nat) ^ 4 = 16 := by norm_num
    rw [e]
    omega
  unfold data_w at h
  refine ite_some_cases _ h (fun hc ht => ?bf) (fun hnbf h => ?_)
  swap
  refine ite_some_cases _ h (fun hc ht => ?b0) (fun hn0 h => ?_)
  swap
  refine ite_some_cases _ h (fun hc ht => ?b1) (fun hn1 h => ?_)
  swap
  refine ite_some_cases _ h (fun hc ht => ?b2) (fun hn2 h => ?_)
  swap
  refine ite_some_cases _ h (fun hc ht => ?b3) (fun hn3 h => ?_)
  swap
  refine ite_some_cases _ h (fun hc ht => ?b4) (fun hn4 h => ?_)
  swap
  refine ite_some_cases _ h (fun hc ht => ?b8) (fun hn8 h => ?_)
  swap
  refine ite_some_cases _ h (fun hc ht => ?b9) (fun hn9 h => ?_)
  swap
  refine ite_some_cases _ h (fun hc h => ?low) (fun hn10 h => ?_)
  swap
  refine ite_some_cases _ h (fun hc ht => ?b11) (fun hn11 h => ?_)
  swap
  refine ite_some_cases _ h (fun hc ht => ?b12) (fun hn12 h => ?_)
  swap
  refine ite_some_cases _ h (fun hc ht => ?b14) (fun hn14 h => ?_)
  swap
  refine ite_some_cases _ h (fun hc ht => ?b15) (fun hn15 ht => ?dflt)
  case bf =>
    have e := Option.some.inj ht
    subst e
    intro reg _ hh
    rcases hh with ⟨hb, _⟩ | hok
    · rw [hc] at hb
      cases hb
    · exact hok
  case dflt =>
    have e := Option.some.inj ht
    subst e
    intro reg hreg hh
    simp only [geometry_regs, List.mem_cons, List.mem_singleton, List.not_mem_nil,
      or_false] at hreg
    rcases hreg with rfl | rfl | rfl | rfl | rfl <;>
      rcases hh with ⟨_, hir⟩ | hok <;> first | exact hok | (dsimp only at hir; omega)
  case low =>
    refine ite_some_cases _ h (fun _ ht => ?_) (fun _ ht => ?_)
    · obtain ⟨e1, e2, e3, e4, e5⟩ := set_busy_flag_geometry _ _ ht
      dsimp only [writebyte] at e1 e2 e3 e4 e5
      intro reg hreg hh
      simp only [geometry_regs, List.mem_cons, List.mem_singleton, List.not_mem_nil,
        or_false] at hreg
      rcases hreg with rfl | rfl | rfl | rfl | rfl <;>
        simp only [reg_ok] at hh ⊢ <;>
        rcases hh with ⟨_, hir⟩ | hok <;> omega
    · obtain ⟨e1, e2, e3, e4, e5⟩ := set_busy_flag_geometry _ _ ht
      dsimp only [writebyte] at e1 e2 e3 e4 e5
      intro reg hreg hh
      simp only [geometry_regs, List.mem_cons, List.mem_singleton, List.not_mem_nil,
        or_false] at hreg
      rcases hreg with rfl | rfl | rfl | rfl | rfl <;>
        simp only [reg_ok] at hh ⊢ <;>
        rcases hh with ⟨_, hir⟩ | hok <;> omega
  case b0 =>
    obtain ⟨e1, e2, e3, e4, e5⟩ := set_busy_flag_geometry _ _ ht
    dsimp only [writebyte] at e1 e2 e3 e4 e5
    intro reg hreg hh
    simp only [geometry_regs, List.mem_cons, List.mem_singleton, List.not_mem_nil,
      or_false] at hreg
    rcases hreg with rfl | rfl | rfl | rfl | rfl <;>
      simp only [reg_ok] at hh ⊢ <;>
      rcases hh with ⟨_, hir⟩ | hok <;> omega
  case b1 =>
    obtain ⟨e1, e2, e3, e4, e5⟩ := set_busy_flag_geometry _ _ ht
    dsimp only [writebyte] at e1 e2 e3 e4 e5
    intro reg hreg hh
    simp only [geometry_regs, List.mem_cons, List.mem_singleton, List.not_mem_nil,
      or_false] at hreg
    rcases hreg with rfl | rfl | rfl | rfl | rfl <;>
      simp only [reg_ok] at hh ⊢ <;>
      rcases hh with ⟨_, hir⟩ | hok <;> omega
  case b2 =>
    obtain ⟨e1, e2, e3, e4, e5⟩ := set_busy_flag_geometry _ _ ht
    dsimp only [writebyte] at e1 e2 e3 e4 e5
    intro reg hreg hh
    simp only [geometry_regs, List.mem_cons, List.mem_singleton, List.not_mem_nil,
      or_false] at hreg
    rcases hreg with rfl | rfl | rfl | rfl | rfl <;>
      simp only [reg_ok] at hh ⊢ <;>
      rcases hh with ⟨_, hir⟩ | hok <;> omega
  case b3 =>
    obtain ⟨e1, e2, e3, e4, e5⟩ := set_busy_flag_geometry _ _ ht
    dsimp only [writebyte] at e1 e2 e3 e4 e5
    intro reg hreg hh
    simp only [geometry_regs, List.mem_cons, List.mem_singleton, List.not_mem_nil,
      or_false] at hreg
    rcases hreg with rfl | rfl | rfl | rfl | rfl <;>
      simp only [reg_ok] at hh ⊢ <;>
      rcases hh with ⟨_, hir⟩ | hok <;> omega
  case b4 =>
    obtain ⟨e1, e2, e3, e4, e5⟩ := set_busy_flag_geometry _ _ ht
    dsimp only [writebyte] at e1 e2 e3 e4 e5
    intro reg hreg hh
    simp only [geometry_regs, List.mem_cons, List.mem_singleton, List.not_mem_nil,
      or_false] at hreg
    rcases hreg with rfl | rfl | rfl | rfl | rfl <;>
      simp only [reg_ok] at hh ⊢ <;>
      rcases hh with ⟨_, hir⟩ | hok <;> omega
  case b8 =>
    obtain ⟨e1, e2, e3, e4, e5⟩ := set_busy_flag_geometry _ _ ht
    dsimp only [writebyte] at e1 e2 e3 e4 e5
    intro reg hreg hh
    simp only [geometry_regs, List.mem_cons, List.mem_singleton, List.not_mem_nil,
      or_false] at hreg
    rcases hreg with rfl | rfl | rfl | rfl | rfl <;>
      simp only [reg_ok] at hh ⊢ <;>
      rcases hh with ⟨_, hir⟩ | hok <;> omega
  case b9 =>
    obtain ⟨e1, e2, e3, e4, e5⟩ := set_busy_flag_geometry _ _ ht
    dsimp only [writebyte] at e1 e2 e3 e4 e5
    intro reg hreg hh
    simp only [geometry_regs, List.mem_cons, List.mem_singleton, List.not_mem_nil,
      or_false] at hreg
    rcases hreg with rfl | rfl | rfl | rfl | rfl <;>
      simp only [reg_ok] at hh ⊢ <;>
      rcases hh with ⟨_, hir⟩ | hok <;> omega
  case b11 =>
    obtain ⟨e1, e2, e3, e4, e5⟩ := set_busy_flag_geometry _ _ ht
    dsimp only [writebyte] at e1 e2 e3 e4 e5
    intro reg hreg hh
    simp only [geometry_regs, List.mem_cons, List.mem_singleton, List.not_mem_nil,
      or_false] at hreg
    rcases hreg with rfl | rfl | rfl | rfl | rfl <;>
      simp only [reg_ok] at hh ⊢ <;>
      rcases hh with ⟨_, hir⟩ | hok <;> omega
  case b12 =>
    obtain ⟨e1, e2, e3, e4, e5⟩ := set_busy_flag_geometry _ _ ht
    dsimp only [writebyte] at e1 e2 e3 e4 e5
    intro reg hreg hh
    simp only [geometry_regs, List.mem_cons, List.mem_singleton, List.not_mem_nil,
      or_false] at hreg
    rcases hreg with rfl | rfl | rfl | rfl | rfl <;>
      simp only [reg_ok] at hh ⊢ <;>
      rcases hh with ⟨_, hir⟩ | hok <;> omega
  case b14 =>
    obtain ⟨e1, e2, e3, e4, e5⟩ := set_busy_flag_geometry _ _ ht
    dsimp only [writebyte] at e1 e2 e3 e4 e5
    intro reg hreg hh
    simp only [geometry_regs, List.mem_cons, List.mem_singleton, List.not_mem_nil,
      or_false] at hreg
    rcases hreg with rfl | rfl | rfl | rfl | rfl <;>
      simp only [reg_ok] at hh ⊢ <;>
      rcases hh with ⟨_, hir⟩ | hok <;> omega
  case b15 =>
    obtain ⟨e1, e2, e3, e4, e5⟩ := set_busy_flag_geometry _ _ ht
    dsimp only [writebyte] at e1 e2 e3 e4 e5
    intro reg hreg hh
    simp only [geometry_regs, List.mem_cons, List.mem_singleton, List.not_mem_nil,
      or_false] at hreg
    rcases hreg with rfl | rfl | rfl | rfl | rfl <;>
      simp only [reg_ok] at hh ⊢ <;>
      rcases hh with ⟨_, hir⟩ | hok <;> omega

theorem update_screen_keeps_geometry (env : render_env) (s : hd61830_device)
    (r : hd61830_device × List draw_op) (h : update_screen env s = some r) :
    r.1.m_hp = s.m_hp ∧ r.1.m_vp = s.m_vp ∧ r.1.m_hn = s.m_hn ∧ r.1.m_nx = s.m_nx ∧
    r.1.m_cp = s.m_cp := by
  unfold update_screen at h
  simp only at h
  split at h
  · exact absurd h (by simp)
  · simp only [Option.some.injEq] at h
    subst h
    split_ifs <;> exact ⟨rfl, rfl, rfl, rfl, rfl⟩

theorem reg_ok_of_eq (s s1 : hd61830_device)
    (e : s1.m_hp = s.m_hp ∧ s1.m_vp = s.m_vp ∧ s1.m_hn = s.m_hn ∧ s1.m_nx = s.m_nx ∧
      s1.m_cp = s.m_cp) :
    ∀ reg ∈ geometry_regs, reg_ok reg s → reg_ok reg s1 := by
  obtain ⟨e1, e2, e3, e4, e5⟩ := e
  intro reg hreg hok
  simp only [geometry_regs, List.mem_cons, List.mem_singleton, List.not_mem_nil,
    or_false] at hreg
  rcases hreg with rfl | rfl | rfl | rfl | rfl <;>
    simp only [reg_ok] at hok ⊢ <;> omega

theorem step_geometry (env : render_env) (s s1 : hd61830_device) (a : access)
    (hbyte : writes_byte a = true) (h : step env s a = some s1) :
    ∀ reg ∈ geometry_regs,
      (reg.1 ∈ accepted_writes env s [a] ∨ reg_ok reg s) → reg_ok reg s1 := by
  intro reg hreg hh
  cases a with
  | data_w data =>
    have hd : data < 256 := by simpa [writes_byte] using hbyte
    refine data_w_geometry s s1 data hd h reg hreg ?_
    rcases hh with hacc | hok
    · left
      by_cases hb : s.m_bf = true
      · simp [accepted_writes, hb, h] at hacc
      · have hb2 : s.m_bf = false := by simpa using hb
        simp only [accepted_writes, hb2, Bool.false_eq_true, if_false, List.mem_append,
          List.mem_singleton] at hacc
        rcases hacc with hacc | hacc
        · exact ⟨hb2, hacc.symm⟩
        · cases hs : step env s (access.data_w data) <;> simp [hs] at hacc
    · exact Or.inr hok
  | control_w data =>
    have hok : reg_ok reg s := by
      rcases hh with hacc | hok
      · cases hs : step env s (access.control_w data) <;> simp [accepted_writes, hs] at hacc
      · exact hok
    simp only [step, Option.some.injEq] at h
    subst h
    exact reg_ok_of_eq s (control_w s data) ⟨rfl, rfl, rfl, rfl, rfl⟩ reg hreg hok
  | data_r =>
    have hok : reg_ok reg s := by
      rcases hh with hacc | hok
      · cases hs : step env s access.data_r <;> simp [accepted_writes, hs] at hacc
      · exact hok
    simp only [step, Option.some.injEq] at h
    subst h
    exact reg_ok_of_eq s (data_r s).1 ⟨rfl, rfl, rfl, rfl, rfl⟩ reg hreg hok
  | status_r =>
    have hok : reg_ok reg s := by
      rcases hh with hacc | hok
      · cases hs : step env s access.status_r <;> simp [accepted_writes, hs] at hacc
      · exact hok
    simp only [step, Option.some.injEq] at h
    subst h
    exact reg_ok_of_eq s _ ⟨rfl, rfl, rfl, rfl, rfl⟩ reg hreg hok
  | device_reset =>
    have hok : reg_ok reg s := by
      rcases hh with hacc | hok
      · cases hs : step env s access.device_reset <;> simp [accepted_writes, hs] at hacc
      · exact hok
    simp only [step, Option.some.injEq] at h
    subst h
    simp only [geometry_regs, List.mem_cons, List.mem_singleton, List.not_mem_nil,
      or_false] at hreg
    rcases hreg with rfl | rfl | rfl | rfl | rfl <;>
      simp only [reg_ok, device_reset] at hok ⊢ <;> omega
  | update_screen =>
    have hok : reg_ok reg s := by
      rcases hh with hacc | hok
      · cases hs : step env s access.update_screen <;> simp [accepted_writes, hs] at hacc
      · exact hok
    simp only [step] at h
    cases hu : update_screen env s with
    | none => simp [hu] at h
    | some r =>
      simp only [hu, Option.map_some', Option.some.injEq] at h
      subst h
      exact reg_ok_of_eq s _ (update_screen_keeps_geometry env s r hu) reg hreg hok
  | device_timer =>
    have hok : reg_ok reg s := by
      rcases hh with hacc | hok
      · cases hs : step env s access.device_timer <;> simp [accepted_writes, hs] at hacc
      · exact hok
    simp only [step, busy_timer_expiry] at h
    cases ht : s.m_busy_timer with
    | none => simp [ht] at h
    | some us =>
      simp only [ht, Option.some.injEq] at h
      subst h
      exact reg_ok_of_eq s (device_timer { s with m_busy_timer := none })
        ⟨rfl, rfl, rfl, rfl, rfl⟩ reg hreg hok

theorem accepted_writes_cons (env : render_env) (s s1 : hd61830_device) (a : access)
    (rest : List access) (hs : step env s a = some s1) (k : Nat) :
    k ∈ accepted_writes env s (a :: rest) ↔
      k ∈ accepted_writes env s [a] ∨ k ∈ accepted_writes env s1 rest := by
  simp only [accepted_writes, hs, List.mem_append, List.append_nil]

theorem run_geometry (env : render_env) (ops : List access) :
    ∀ (s s1 : hd61830_device), (∀ a ∈ ops, writes_byte a = true) →
      run env s ops = some s1 →
      ∀ reg ∈ geometry_regs,
        (reg.1 ∈ accepted_writes env s ops ∨ reg_ok reg s) → reg_ok reg s1 := by
  induction ops with
  | nil =>
    intro s s1 _ h reg _ hh
    simp only [run, Option.some.injEq] at h
    subst h
    rcases hh with hacc | hok
    · simp [accepted_writes] at hacc
    · exact hok
  | cons a rest ih =>
    intro s s1 hbytes h reg hreg hh
    simp only [run] at h
    cases hs : step env s a with
    | none => simp [hs] at h
    | some s2 =>
      simp only [hs] at h
      have hstep := step_geometry env s s2 a (hbytes a (List.mem_cons_self a rest)) hs reg hreg
      refine ih s2 s1 (fun b hb => hbytes b (List.mem_cons_of_mem a hb)) h reg hreg ?_
      rcases hh with hacc | hok
      · rcases (accepted_writes_cons env s s2 a rest hs reg.1).1 hacc with h1 | h2
        · exact Or.inr (hstep (Or.inl h1))
        · exact Or.inl h2
      · exact Or.inr (hstep (Or.inr hok))

/-- C25 (geometry registers). Start from `device_reset` of any device and make
any sequence of accesses that write bytes and that contains at least one
accepted CHARACTER_PITCH, NUMBER_OF_CHARACTERS, NUMBER_OF_TIME_DIVISIONS and
CURSOR_POSITION write. In the device reached, and in every device reached
from it by further accesses, `m_hp` is in 1..8, `m_vp` in 1..16 and `m_hn`,
`m_nx`, `m_cp` in 1..128. In particular `m_vp` is not 0, so `update_text` has
a result, and every pixel `draw_scanline` writes is one of the bits 0..7 of
the byte it read. -/
theorem geometry_in_range (env : render_env) (s0 s : hd61830_device) (ops : List access)
    (hbytes : ∀ a ∈ ops, writes_byte a = true)
    (hrun : run env (device_reset s0) ops = some s)
    (h1 : INSTRUCTION_CHARACTER_PITCH ∈ accepted_writes env (device_reset s0) ops)
    (h2 : INSTRUCTION_NUMBER_OF_CHARACTERS ∈ accepted_writes env (device_reset s0) ops)
    (h3 : INSTRUCTION_NUMBER_OF_TIME_DIVISIONS ∈ accepted_writes env (device_reset s0) ops)
    (h4 : INSTRUCTION_CURSOR_POSITION ∈ accepted_writes env (device_reset s0) ops) :
    geometry_ok s ∧
    (∀ (later : List access) (s2 : hd61830_device), (∀ a ∈ later, writes_byte a = true) →
      run env s later = some s2 → geometry_ok s2) ∧
    s.m_vp ≠ 0 ∧
    (∃ drawn, update_text env s = some drawn) ∧
    (∀ (y : Int) (ra : Nat), ∀ op ∈ draw_scanline s y ra,
      ∃ sx x : Nat, x < 8 ∧
        op = draw_op.plot y ((sx : Int) * s.m_hp + (x : Int))
          (BIT (readbyte s ((ra + sx) % 65536)) x)) := by
  have hall : ∀ reg ∈ geometry_regs, reg_ok reg s := by
    intro reg hreg
    refine run_geometry env ops (device_reset s0) s hbytes hrun reg hreg (Or.inl ?_)
    simp only [geometry_regs, List.mem_cons, List.mem_singleton, List.not_mem_nil,
      or_false] at hreg
    rcases hreg with rfl | rfl | rfl | rfl | rfl
    · exact h1
    · exact h1
    · exact h2
    · exact h3
    · exact h4
  have hgeo : ∀ t : hd61830_device, (∀ reg ∈ geometry_regs, reg_ok reg t) → geometry_ok t := by
    intro t ht
    have a1 := ht (INSTRUCTION_CHARACTER_PITCH, fun s => s.m_hp, 8) (by simp [geometry_regs])
    have a2 := ht (INSTRUCTION_CHARACTER_PITCH, fun s => s.m_vp, 16) (by simp [geometry_regs])
    have a3 := ht (INSTRUCTION_NUMBER_OF_CHARACTERS, fun s => s.m_hn, 128)
      (by simp [geometry_regs])
    have a4 := ht (INSTRUCTION_NUMBER_OF_TIME_DIVISIONS, fun s => s.m_nx, 128)
      (by simp [geometry_regs])
    have a5 := ht (INSTRUCTION_CURSOR_POSITION, fun s => s.m_cp, 128) (by simp [geometry_regs])
    exact ⟨a1, a2, a3, a4, a5⟩
  have hok := hgeo s hall
  have hvp : s.m_vp ≠ 0 := by
    have := hok.2.1.1
    omega
  refine ⟨hok, ?_, hvp, ?_, ?_⟩
  · intro later s2 hb hr
    exact hgeo s2 fun reg hreg =>
      run_geometry env later s s2 hb hr reg hreg (Or.inr (hall reg hreg))
  · simp [update_text, hvp]
  · intro y ra op hop
    simp only [draw_scanline, List.mem_flatMap, List.mem_map, List.mem_range] at hop
    obtain ⟨sx, _, x, hx, rfl⟩ := hop
    have := hok.1.2
    exact ⟨sx, x, by omega, rfl⟩

/-- The geometry theorem applied to a device whose geometry registers hold 0
and values out of range: after a reset and the set-up writes, the pitch is 6
by 8 with 40 characters, 64 time divisions and cursor position 8. -/
theorem geometry_in_range_witness :
    (raw_device.m_vp = 0 ∧ run sample_env (device_reset raw_device) geometry_setup =
      some configured_device) ∧
    geometry_ok configured_device ∧ configured_device.m_vp ≠ 0 :=
  ⟨⟨rfl, rfl⟩,
    (geometry_in_range sample_env raw_device configured_device geometry_setup
      (by decide) rfl (by decide) (by decide) (by decide) (by decide)).1,
    (geometry_in_range sample_env raw_device configured_device geometry_setup
      (by decide) rfl (by decide) (by decide) (by decide) (by decide)).2.2.1⟩

end HD61830
